import Mathlib

/-!
Shallow embedding of the docx-formatting pipeline `formatingDocx`
(package `doc_editor`): the document/paragraph/run data model, the
typed configuration records (`doc_editor/models/config.py`), and the
processors the verified claims are about:

* `HeaderFooterProcessor` (`processors/header_footer_processor.py`)
* `TOCProcessor`           (`processors/toc_processor.py`)
* `SectionProcessor`       (`processors/section_processor.py`)
* `PrefaceProcessor`       (`processors/preface_processor.py`)
* `AppendixProcessor`      (`processors/appendix_processor.py`)
* `parse_measurement`      (`doc_editor/utils.py`)

The document tree is the part of the python-docx object model the code
reads and mutates: a document holds body paragraphs and sections; a
section holds header/footer elements; an element holds paragraphs; a
paragraph holds a style name, an optional alignment and a list of runs;
a run holds text and character formatting.  `paragraph.text` is the
concatenation of its runs' texts, `paragraph.clear()` empties the runs,
`insert_paragraph_before` inserts a new paragraph immediately before
the receiver, `paragraph.text = s` replaces the runs by one run holding
`s` — these are the python-docx semantics the embedding relies on.
-/

namespace DocxModel

/-- `WD_PARAGRAPH_ALIGNMENT` values used by the code. -/
inductive Alignment where
  | left
  | right
  | center
deriving DecidableEq, Repr

/-- A text run: text plus the character formatting the processors set.
python-docx `run.bold` / `run.italic` are tri-state (`None`/`True`/`False`),
hence `Option Bool`.  `fontName` stands for `run.font.name`; the code also
mirrors the same family into the low-level `w:rFonts` XML entry, which always
receives the identical string, so one field represents both layers.
`isPageField` marks the footer run that carries the `PAGE` field code
(begin/instrText/end) instead of literal text. -/
structure Run where
  text : String
  bold : Option Bool := none
  italic : Option Bool := none
  fontName : Option String := none
  isPageField : Bool := false
deriving DecidableEq, Repr

/-- A paragraph: style name, optional alignment, runs. -/
structure Paragraph where
  style : String := "Normal"
  alignment : Option Alignment := none
  runs : List Run := []
deriving DecidableEq, Repr

/-- `paragraph.text`: concatenation of the runs' texts. -/
def Paragraph.text (p : Paragraph) : String :=
  String.join (p.runs.map Run.text)

/-- `paragraph.clear()`: all runs removed, style and alignment kept. -/
def Paragraph.clear (p : Paragraph) : Paragraph :=
  { p with runs := [] }

/-- A header or footer element (`section.header`, `section.footer`,
`first_page_header`, `even_page_header`, ...): a list of paragraphs. -/
structure HFElement where
  paragraphs : List Paragraph := []
deriving DecidableEq, Repr

/-- A document section with its six header/footer elements and the
`different_first_page_header_footer` flag. -/
structure Sect where
  header : HFElement := {}
  footer : HFElement := {}
  firstPageHeader : HFElement := {}
  firstPageFooter : HFElement := {}
  evenPageHeader : HFElement := {}
  evenPageFooter : HFElement := {}
  differentFirstPage : Bool := false
deriving DecidableEq, Repr

/-- The document: body paragraphs, sections, and the
`settings.odd_and_even_pages_header_footer` flag. -/
structure Document where
  paragraphs : List Paragraph := []
  sections : List Sect := []
  oddAndEvenPages : Bool := false
deriving DecidableEq, Repr

end DocxModel

namespace DocxConfig

open DocxModel

/-- `HeaderTextPart` dataclass (`models/config.py`). -/
structure HeaderTextPart where
  text : String
  bold : Bool := false
  italic : Bool := false
  fontFamily : Option String := none
deriving DecidableEq, Repr

/-- `MarginsConfig` dataclass. -/
structure MarginsConfig where
  left : String := "20mm"
  right : String := "10mm"
  top : String := "20mm"
  bottom : String := "20mm"
deriving DecidableEq, Repr

/-- `GeneralConfig.fonts` is a `Dict[str, Any]` of role → attribute dict;
the processors only read `fonts[role].get(key, default)`, modelled as an
association list of association lists. -/
structure GeneralConfig where
  margins : MarginsConfig := {}
  fonts : List (String × List (String × String)) := []
deriving DecidableEq, Repr

/-- `fonts[role].get(key, default)` over the association-list model.
A missing role is a Python `KeyError`; the call sites that reach this
without a surrounding `try` assume the role exists, so the missing-role
case returns the default here as well (the claims never exercise it). -/
def GeneralConfig.fontGet (g : GeneralConfig) (role key dflt : String) : String :=
  match (g.fonts.lookup role).bind (fun attrs => attrs.lookup key) with
  | some v => v
  | none => dflt

/-- `HeadersConfig` dataclass. -/
structure HeadersConfig where
  left : String := ""
  right : String := ""
  pageNumbers : Bool := false
  enabled : Bool := false
  rightParts : List HeaderTextPart := []
  leftParts : List HeaderTextPart := []
deriving DecidableEq, Repr

/-- `SectionConfig` dataclass (only the fields the processors read). -/
structure SectionConfig where
  enabled : Bool := true
deriving DecidableEq, Repr

/-- `TOCConfig` dataclass. -/
structure TOCConfig where
  enabled : Bool := false
  title : String := "ОГЛАВЛЕНИЕ"
  pageNumbers : Bool := true
  levels : Nat := 3
deriving DecidableEq, Repr

/-- `PrefaceConfig` dataclass. -/
structure PrefaceConfig where
  enabled : Bool := false
  content : String := ""
deriving DecidableEq, Repr

/-- `AppendixConfig` dataclass. -/
structure AppendixConfig where
  enabled : Bool := false
  numberingStyle : String := "letters"
deriving DecidableEq, Repr

/-- `NumberingConfig` dataclass (the part the claims read). -/
structure NumberingConfig where
  headers : HeadersConfig := {}
deriving DecidableEq, Repr

/-- `DocumentStructureConfig` dataclass. -/
structure DocumentStructureConfig where
  sections : SectionConfig := {}
  toc : TOCConfig := {}
  preface : PrefaceConfig := {}
  appendix : AppendixConfig := {}
deriving DecidableEq, Repr

/-- `StructureConfig` dataclass. -/
structure StructureConfig where
  numbering : NumberingConfig := {}
  documentStructure : DocumentStructureConfig := {}
deriving DecidableEq, Repr

/-- `DocumentConfig` dataclass. -/
structure DocumentConfig where
  general : GeneralConfig := {}
  structure' : StructureConfig := {}
deriving DecidableEq, Repr

end DocxConfig

namespace PyStr

/-- Python `str.strip()`: whitespace removed from both ends (over the
whitespace repertoire the inputs here use). -/
def pyStrip (s : String) : String :=
  String.mk (((s.data.dropWhile Char.isWhitespace).reverse.dropWhile
    Char.isWhitespace).reverse)

/-- Worker for `pySplitChar`: split the remaining characters at the
separator, `acc` holding the current piece reversed. -/
def pySplitCharGo (sep : Char) : List Char → List Char → List String
  | [], acc => [String.mk acc.reverse]
  | c :: cs, acc =>
      if c = sep then String.mk acc.reverse :: pySplitCharGo sep cs []
      else pySplitCharGo sep cs (c :: acc)

/-- Python `s.split(sep)` for the single-character separators the code
uses (`'\n'` and `'.'`): pieces between separators, empty pieces kept,
`"".split(sep) = [""]`. -/
def pySplitChar (sep : Char) (s : String) : List String :=
  pySplitCharGo sep s.data []

/-- Python `s.endswith(suffix)`. -/
def pyEndsWith (s suffix : String) : Bool :=
  List.isPrefixOf suffix.data.reverse s.data.reverse

/-- Python `s.startswith(pre)`. -/
def pyStartsWith (s pre : String) : Bool :=
  List.isPrefixOf pre.data s.data

/-- Python `str.lower()` on one character, over the repertoire the code
handles: ASCII `A`–`Z` and Cyrillic `А`–`Я` / `Ё` (the appendix keyword
set is Russian and English; `str.lower()` lowercases both, which Lean's
ASCII-only `Char.toLower` would not). -/
def pyLowerChar (c : Char) : Char :=
  if 'A' ≤ c ∧ c ≤ 'Z' then Char.ofNat (c.toNat + 32)
  else if c = 'Ё' then 'ё'
  else if 'А' ≤ c ∧ c ≤ 'Я' then Char.ofNat (c.toNat + 32)
  else c

/-- Python `str.lower()`. -/
def pyLower (s : String) : String := String.mk (s.data.map pyLowerChar)

/-- Python `needle in haystack` for strings: substring containment. -/
def pyIn (needle haystack : String) : Bool :=
  decide (List.IsInfix needle.data haystack.data)

/-- Python `ch in haystack` for a single character. -/
def pyChrIn (c : Char) (haystack : String) : Bool :=
  haystack.data.contains c

/-- Numeric value of a digit list, most significant first. -/
def digitsVal (ds : List Char) : Nat :=
  ds.foldl (fun a c => a * 10 + (c.toNat - '0'.toNat)) 0

/-- A nonempty all-digit list parsed to a natural, otherwise `none`.  Used
by the models of Python `int()` and `float()` below. -/
def parseDigits (cs : List Char) : Option Nat :=
  if cs ≠ [] ∧ cs.all Char.isDigit then some (digitsVal cs) else none

/-- Model of Python `int(s)`: optional sign then decimal digits, nothing
else (the exotic forms — underscores, surrounding whitespace — do not occur
in the inputs the code feeds it). -/
def pyInt (s : String) : Option ℤ :=
  match s.data with
  | '+' :: r => (parseDigits r).map (fun n => (n : ℤ))
  | '-' :: r => (parseDigits r).map (fun n => -(n : ℤ))
  | r => (parseDigits r).map (fun n => (n : ℤ))

/-- Exponent digits of a float literal, with an optional sign, consuming
the whole remaining input. -/
def parseSignedDigits (cs : List Char) : Option ℤ :=
  match cs with
  | '+' :: r => (parseDigits r).map (fun n => (n : ℤ))
  | '-' :: r => (parseDigits r).map (fun n => -(n : ℤ))
  | r => (parseDigits r).map (fun n => (n : ℤ))

/-- Optional `e`/`E` exponent suffix of a float literal; empty input means
exponent `0`, anything else must be a full exponent clause. -/
def parseExpPart (cs : List Char) : Option ℤ :=
  match cs with
  | [] => some 0
  | 'e' :: r => parseSignedDigits r
  | 'E' :: r => parseSignedDigits r
  | _ => none

/-- Model of Python `float(s)` over ℚ: surrounding whitespace stripped,
optional sign, `digits[.digits]` or `.digits`, optional exponent.  The
special spellings `inf`/`nan` and digit underscores are not modelled; no
input the verified claims use involves them, and the value of an
accepted literal is exact here rather than rounded to binary.  The
rational is assembled with `mkRat` over integer arithmetic:
`±(d1 d2) · 10^e / 10^|d2|`. -/
def pyFloat (s : String) : Option ℚ :=
  let cs := (pyStrip s).data
  let signSplit : Bool × List Char :=
    match cs with
    | '+' :: r => (false, r)
    | '-' :: r => (true, r)
    | r => (false, r)
  let neg := signSplit.1
  let d1r := signSplit.2.span Char.isDigit
  let mantissa : Option (Nat × Nat × List Char) :=
    match d1r.2 with
    | '.' :: t =>
        let d2r := t.span Char.isDigit
        if d1r.1 = [] ∧ d2r.1 = [] then none
        else some (digitsVal d1r.1 * 10 ^ d2r.1.length + digitsVal d2r.1,
                   d2r.1.length, d2r.2)
    | _ => if d1r.1 = [] then none else some (digitsVal d1r.1, 0, d1r.2)
  match mantissa with
  | none => none
  | some (m, fracLen, r2) =>
      match parseExpPart r2 with
      | none => none
      | some e =>
          let num : ℤ := if neg then -(m : ℤ) else (m : ℤ)
          if 0 ≤ e then
            some (mkRat (num * ((10 ^ e.toNat : Nat) : ℤ)) (10 ^ fracLen))
          else
            some (mkRat num (10 ^ fracLen * 10 ^ (-e).toNat))

end PyStr

namespace DocxUtils

open PyStr

/-- A python-docx length, tagged with the unit class that built it
(`Pt`, `Mm`, `Cm`, `Inches`); the EMU conversion inside those classes
belongs to the external library. -/
inductive Length where
  | pt (v : ℚ)
  | mm (v : ℚ)
  | cm (v : ℚ)
  | inches (v : ℚ)
deriving DecidableEq, Repr

/-- `DocumentFormattingError` carrying its message
(`models/exceptions.py`). -/
structure DocumentFormattingError where
  msg : String
deriving DecidableEq, Repr

/-- The argument of `parse_measurement`: a Python number or a string. -/
inductive MeasureValue where
  | num (x : ℚ)
  | str (s : String)
deriving DecidableEq, Repr

/-- Decidable equality for `Except` results, so concrete
`parse_measurement` outcomes can be checked by `decide`. -/
instance instDecEqExcept {ε α : Type} [DecidableEq ε] [DecidableEq α] :
    DecidableEq (Except ε α) := fun x y =>
  match x, y with
  | .ok a, .ok b =>
      if h : a = b then isTrue (by rw [h])
      else isFalse (by intro hc; cases hc; exact h rfl)
  | .error a, .error b =>
      if h : a = b then isTrue (by rw [h])
      else isFalse (by intro hc; cases hc; exact h rfl)
  | .ok _, .error _ => isFalse (by intro hc; cases hc)
  | .error _, .ok _ => isFalse (by intro hc; cases hc)

/-- The error message `parse_measurement` raises, up to the trailing
repetition of the underlying `float()` error text. -/
def measurementErrorMsg (value : String) : String :=
  "Некорректный формат размера '" ++ value ++ "'"

/-- `parse_measurement` (`doc_editor/utils.py`): numbers go to points;
strings are stripped and lowercased, a `mm`/`cm`/`pt`/`in`/`"` suffix
selects the unit, no suffix means points; a remainder `float()` rejects
raises `DocumentFormattingError` carrying the normalized string. -/
def parse_measurement (v : MeasureValue) : Except DocumentFormattingError Length :=
  match v with
  | .num x => .ok (.pt x)
  | .str s =>
      let value := pyLower (pyStrip s)
      if pyEndsWith value "mm" then
        match pyFloat (value.dropRight 2) with
        | some q => .ok (.mm q)
        | none => .error ⟨measurementErrorMsg value⟩
      else if pyEndsWith value "cm" then
        match pyFloat (value.dropRight 2) with
        | some q => .ok (.cm q)
        | none => .error ⟨measurementErrorMsg value⟩
      else if pyEndsWith value "pt" then
        match pyFloat (value.dropRight 2) with
        | some q => .ok (.pt q)
        | none => .error ⟨measurementErrorMsg value⟩
      else if pyEndsWith value "in" || pyEndsWith value "\"" then
        match pyFloat (if pyEndsWith value "in" then value.dropRight 2 else value.dropRight 1) with
        | some q => .ok (.inches q)
        | none => .error ⟨measurementErrorMsg value⟩
      else
        match pyFloat value with
        | some q => .ok (.pt q)
        | none => .error ⟨measurementErrorMsg value⟩

end DocxUtils

namespace HeaderFooterProcessor

open DocxModel DocxConfig

/-- The `align` parameter handling shared by `_add_text_to_element`,
`_add_text_parts_to_element` and `_add_page_number`: `'left'`, `'right'`
and `'center'` set the alignment, anything else leaves it untouched. -/
def setAlign (p : Paragraph) (align : Option String) : Paragraph :=
  match align with
  | some "left" => { p with alignment := some .left }
  | some "right" => { p with alignment := some .right }
  | some "center" => { p with alignment := some .center }
  | _ => p

/-- `_clear_element`: clear every paragraph; if the element had none,
add one empty paragraph. -/
def clearElement (e : HFElement) : HFElement :=
  let ps := e.paragraphs.map Paragraph.clear
  if ps.isEmpty then { paragraphs := [{}] } else { paragraphs := ps }

/-- Take the element's first paragraph cleared (rest kept), or a fresh
paragraph when the element has none — the shared opening move of the three
`_add_*` helpers. -/
def takeFirstParagraph (e : HFElement) : Paragraph × List Paragraph :=
  match e.paragraphs with
  | p :: rest => (p.clear, rest)
  | [] => ({}, [])

/-- `fonts['main'].get('family', None)` inside the helpers' `try` blocks:
a missing role or key yields no font override (a `KeyError` there is
swallowed by the surrounding `except`). -/
def mainFamilyOpt (g : GeneralConfig) : Option String :=
  (g.fonts.lookup "main").bind (fun attrs => attrs.lookup "family")

/-- `_add_text_to_element`: reuse (cleared) or create the first paragraph,
set alignment, add one run with the text and the main font family when
configured (XML-layer mirroring collapsed into `fontName`). -/
def addTextToElement (g : GeneralConfig) (e : HFElement) (text : String)
    (align : Option String) : HFElement :=
  let pr := takeFirstParagraph e
  let para := setAlign pr.1 align
  let run : Run := { text := text, fontName := mainFamilyOpt g }
  { paragraphs := { para with runs := para.runs ++ [run] } :: pr.2 }

/-- `_add_text_parts_to_element`: like `addTextToElement` but one run per
`HeaderTextPart`, with explicit bold/italic and the part's font family
falling back (Python `or`, so also on an empty string) to
`fonts['main'].get('family', 'Arial')`. -/
def addTextPartsToElement (g : GeneralConfig) (e : HFElement)
    (parts : List HeaderTextPart) (align : Option String) : HFElement :=
  let pr := takeFirstParagraph e
  let para := setAlign pr.1 align
  let mainFamily := g.fontGet "main" "family" "Arial"
  let runs := parts.map (fun part =>
    let fam := match part.fontFamily with
      | some f => if f = "" then mainFamily else f
      | none => mainFamily
    ({ text := part.text, bold := some part.bold, italic := some part.italic,
       fontName := some fam } : Run))
  { paragraphs := { para with runs := para.runs ++ runs } :: pr.2 }

/-- `_add_page_number`: reuse/create the first footer paragraph, align it
(default center), and add the empty run that carries the `PAGE` field
code, with the main family when configured. -/
def addPageNumber (g : GeneralConfig) (footer : HFElement) (align : String) : HFElement :=
  let pr := takeFirstParagraph footer
  let para :=
    if align = "left" then { pr.1 with alignment := some .left }
    else if align = "right" then { pr.1 with alignment := some .right }
    else { pr.1 with alignment := some .center }
  let run : Run := { text := "", fontName := mainFamilyOpt g, isPageField := true }
  { paragraphs := { para with runs := para.runs ++ [run] } :: pr.2 }

/-- The per-section body of the `_apply_headers_footers` loop: mark a
distinct first page, clear its header/footer, fill the odd header from
`right_parts` (falling back to the plain `left` string), the even header
from `left_parts` (falling back to the plain `right` string), and when
page numbers are on add the field runs to both footers. -/
def processSection (cfg : DocumentConfig) (sec : Sect) : Sect :=
  let h := cfg.structure'.numbering.headers
  let sec := { sec with
    differentFirstPage := true
    firstPageHeader := clearElement sec.firstPageHeader
    firstPageFooter := clearElement sec.firstPageFooter }
  let sec :=
    if !h.rightParts.isEmpty then
      { sec with header := addTextPartsToElement cfg.general sec.header h.rightParts (some "right") }
    else
      { sec with header := addTextToElement cfg.general sec.header h.left (some "right") }
  let sec :=
    if !h.leftParts.isEmpty then
      { sec with evenPageHeader := addTextPartsToElement cfg.general sec.evenPageHeader h.leftParts (some "left") }
    else
      { sec with evenPageHeader := addTextToElement cfg.general sec.evenPageHeader h.right (some "left") }
  if h.pageNumbers then
    { sec with
      footer := addPageNumber cfg.general sec.footer "right"
      evenPageFooter := addPageNumber cfg.general sec.evenPageFooter "left" }
  else sec

/-- `_apply_headers_footers`: set the odd/even document setting, then run
the per-section body over every section. -/
def applyHeadersFooters (cfg : DocumentConfig) (doc : Document) : Document :=
  { paragraphs := doc.paragraphs
    oddAndEvenPages := true
    sections := doc.sections.map (processSection cfg) }

/-- `HeaderFooterProcessor.apply`: no-op when headers are disabled, else
run `_apply_headers_footers` (the `try`/`except ProcessorError` boundary
is modelled separately as `StageBoundary.headersBoundary`). -/
def apply (cfg : DocumentConfig) (doc : Document) : Document :=
  if !cfg.structure'.numbering.headers.enabled then doc
  else applyHeadersFooters cfg doc

end HeaderFooterProcessor

namespace DocxModel

/-- A paragraph as `insert_paragraph_before(text)` / `add_paragraph(text)`
creates it, after the caller assigned the given style (python-docx reports
`"Normal"` when no style was assigned). -/
def mkParagraph (text : String) (style : String := "Normal") : Paragraph :=
  { style := style, runs := [{ text := text }] }

end DocxModel

namespace DocxModel

/-- The insertion pattern the TOC and preface processors repeat: when the
paragraph list is nonempty and `idx` is a live index, the new paragraph
goes in front of the paragraph at `idx` (`insert_paragraph_before`), else
it is appended (`add_paragraph`). -/
def insertOrAppend (idx : Nat) (p : Paragraph) (ps : List Paragraph) :
    List Paragraph :=
  if !ps.isEmpty ∧ idx < ps.length then List.insertIdx idx p ps
  else ps ++ [p]

end DocxModel

namespace TOCProcessor

open DocxModel DocxConfig PyStr

/-- `TOCProcessor.HEADING_STYLES`. -/
def HEADING_STYLES : List (String × Nat) :=
  [("Heading 1", 0), ("Heading 2", 1), ("Heading 3", 2)]

/-- `paragraph.style.name in HEADING_STYLES`. -/
def isHeadingStyle (style : String) : Bool :=
  (HEADING_STYLES.lookup style).isSome

/-- `_get_heading_level`: the style map with default 0. -/
def getHeadingLevel (style : String) : Nat :=
  (HEADING_STYLES.lookup style).getD 0

/-- `_extract_headings`: the paragraphs whose style is a heading style,
in document order. -/
def extractHeadings (doc : Document) : List Paragraph :=
  doc.paragraphs.filter (fun p => isHeadingStyle p.style)

/-- `_get_paragraph_page_number`: its `try` body runs
`document.paragraphs.index(paragraph)`, but `document.paragraphs`
rebuilds fresh `Paragraph` proxy objects on every access and `Paragraph`
defines no `__eq__`, so for a heading captured earlier by
`_extract_headings` the lookup always raises `ValueError`; the `except`
clause logs and returns 1.  Every heading therefore gets page number 1,
and the `para_index // 55 + 1` computation in the `try` body is dead
code. -/
def paragraphPageNumber : Nat := 1

/-- One TOC entry (`level`/`text`/`page_num` dict). -/
structure TOCEntry where
  level : Nat
  text : String
  pageNum : Nat
deriving DecidableEq, Repr

/-- `_build_toc_entries` over the extracted headings: level from the
style map, entries whose level reaches `toc.levels` skipped, page number
from `_get_paragraph_page_number` (always 1, see above). -/
def buildTocEntries (cfg : DocumentConfig) (doc : Document) : List TOCEntry :=
  (extractHeadings doc).filterMap
    (fun p =>
      let level := getHeadingLevel p.style
      if level ≥ cfg.structure'.documentStructure.toc.levels then none
      else some { level := level, text := p.text, pageNum := paragraphPageNumber })

/-- `"  " * level`. -/
def indentFor (level : Nat) : String :=
  String.join (List.replicate level "  ")

/-- `_build_toc_lines`: indent by level, append `"..." + page_num` when
page numbers are enabled. -/
def buildTocLines (cfg : DocumentConfig) (entries : List TOCEntry) : List String :=
  entries.map (fun e =>
    if cfg.structure'.documentStructure.toc.pageNumbers then
      indentFor e.level ++ e.text ++ "..." ++ toString e.pageNum
    else
      indentFor e.level ++ e.text)

/-- The body of the TOC-line insertion loop of `_insert_toc_to_document`:
line number `i` goes in front of the paragraph at `insert_index + i + 2`
when that index exists, else at the end, and gets style `Normal`. -/
def tocLineStep (insertIndex : Nat) (ps : List Paragraph) (il : Nat × String) :
    List Paragraph :=
  insertOrAppend (insertIndex + il.1 + 2) (mkParagraph il.2 "Normal") ps

/-- `_insert_toc_to_document`: title (styled Heading 1), a blank spacer,
the lines (styled Normal), a trailing blank spacer — each via
`insert_paragraph_before` on the paragraph at the computed index when it
exists, else `add_paragraph`.  The source's `insert_index` is 0 on every
path (its one conditional assigns 0 again). -/
def insertTocToDocument (cfg : DocumentConfig) (doc : Document)
    (tocLines : List String) : Document :=
  let tocTitle := cfg.structure'.documentStructure.toc.title
  let insertIndex := 0
  let ps := doc.paragraphs
  let ps := insertOrAppend insertIndex (mkParagraph tocTitle "Heading 1") ps
  let ps := insertOrAppend insertIndex (mkParagraph "") ps
  let ps := tocLines.enum.foldl (tocLineStep insertIndex) ps
  let ps := insertOrAppend (insertIndex + tocLines.length + 2) (mkParagraph "") ps
  { doc with paragraphs := ps }

/-- `TOCProcessor.create_toc`: no-op when disabled or when the document
has no headings, else build the entries and lines and insert them (its
`except` clause logs and re-raises unwrapped, see
`StageBoundary.tocBoundary`). -/
def create_toc (cfg : DocumentConfig) (doc : Document) : Document :=
  if !cfg.structure'.documentStructure.toc.enabled then doc
  else
    let headings := extractHeadings doc
    if headings.isEmpty then doc
    else
      let entries := buildTocEntries cfg doc
      let tocLines := buildTocLines cfg entries
      insertTocToDocument cfg doc tocLines

end TOCProcessor

namespace SectionProcessor

open DocxModel DocxConfig PyStr

/-- `SectionProcessor.HEADING_LEVELS` (the processor's own copy of the
style→depth map). -/
def HEADING_LEVELS : List (String × Nat) :=
  [("Heading 1", 0), ("Heading 2", 1), ("Heading 3", 2)]

/-- Zero every counter at positions `≥ lo`
(`for i in range(lo, len(section_numbers)): section_numbers[i] = 0`). -/
def resetBelow (nums : List ℤ) (lo : Nat) : List ℤ :=
  nums.enum.map (fun iv => if lo ≤ iv.1 then 0 else iv.2)

/-- `_update_section_number`: increment the counter at `level`, zero the
deeper ones. -/
def updateSectionNumber (level : Nat) (nums : List ℤ) : List ℤ :=
  resetBelow (nums.set level (nums.getD level 0 + 1)) (level + 1)

/-- `_get_section_number`: counters up to `level` joined by `"."`. -/
def getSectionNumber (level : Nat) (nums : List ℤ) : String :=
  String.intercalate "." ((nums.take (level + 1)).map (fun n => toString n))

/-- The assignment loop of `_parse_and_update_from_existing`: set
`nums[i] := int(part)` left to right; a part `int()` rejects stops the
loop there (Python's `ValueError` is caught after the partial updates
already happened), reported by the `false` flag. -/
def assignParts : Nat → List String → List ℤ → List ℤ × Bool
  | _, [], nums => (nums, true)
  | i, p :: rest, nums =>
      match pyInt p with
      | some v => assignParts (i + 1) rest (nums.set i v)
      | none => (nums, false)

/-- `_parse_and_update_from_existing`: no space in the text means no
update at all; otherwise the dot-separated token before the first space
is loaded into the counters up to `level` and, when every part parsed,
the deeper counters are zeroed (on a parse failure the handler only
logs, keeping the partial updates). -/
def parseAndUpdateFromExisting (text : String) (level : Nat) (nums : List ℤ) : List ℤ :=
  match text.data.findIdx? (· = ' ') with
  | none => nums
  | some spaceIdx =>
      let numberStr := String.mk (text.data.take spaceIdx)
      let parts := pySplitChar '.' numberStr
      let r := assignParts 0 (parts.take (level + 1)) nums
      if r.2 then resetBelow r.1 (level + 1) else r.1

/-- `current_text and current_text[0].isdigit()`. -/
def startsWithDigit (s : String) : Bool :=
  match s.data with
  | [] => false
  | c :: _ => c.isDigit

/-- `_process_heading`: a digit-leading stripped text only feeds
`_parse_and_update_from_existing` and leaves the paragraph alone;
otherwise bump the counters, clear the runs' content, and add bold
number and bold original-text runs. -/
def processHeading (p : Paragraph) (level : Nat) (nums : List ℤ) :
    Paragraph × List ℤ :=
  let currentText := pyStrip p.text
  if startsWithDigit currentText then
    (p, parseAndUpdateFromExisting currentText level nums)
  else
    let nums := updateSectionNumber level nums
    let sectionNum := getSectionNumber level nums
    let cleared := p.runs.map (fun r => { r with text := "" })
    let numRun : Run := { text := sectionNum ++ " ", bold := some true }
    let textRun : Run := { text := currentText, bold := some true }
    ({ p with runs := cleared ++ [numRun, textRun] }, nums)

/-- One step of the paragraph walk in `apply_section_numbering`:
non-heading styles are skipped untouched. -/
def numberingStep (acc : List Paragraph × List ℤ) (p : Paragraph) :
    List Paragraph × List ℤ :=
  match HEADING_LEVELS.lookup p.style with
  | none => (acc.1 ++ [p], acc.2)
  | some level =>
      let r := processHeading p level acc.2
      (acc.1 ++ [r.1], r.2)

/-- `apply_section_numbering`: no-op when section numbering is disabled,
else reset the counters to `[0,0,0]` and process every paragraph in
document order. -/
def apply_section_numbering (cfg : DocumentConfig) (doc : Document) : Document :=
  if !cfg.structure'.documentStructure.sections.enabled then doc
  else
    { doc with paragraphs := (doc.paragraphs.foldl numberingStep ([], [0, 0, 0])).1 }

end SectionProcessor

namespace PrefaceProcessor

open DocxModel DocxConfig PyStr

/-- The body of the line loop in `_insert_preface_to_document`: strip the
line, skip it when blank, else insert it (styled Normal) before the
current first paragraph, appending when the document is empty. -/
def prefaceLineStep (ps : List Paragraph) (line : String) : List Paragraph :=
  let line := pyStrip line
  if line = "" then ps
  else insertOrAppend 0 (mkParagraph line "Normal") ps

/-- `_insert_preface_to_document`: split on newlines, skip blank lines,
insert each remaining line (stripped, styled Normal) before the current
first paragraph — appending instead when the document is empty.  The
source's `insert_index` is 0 on both branches of its conditional. -/
def insertPrefaceToDocument (doc : Document) (content : String) : Document :=
  let prefaceLines := pySplitChar '\n' content
  { doc with paragraphs := prefaceLines.foldl prefaceLineStep doc.paragraphs }

/-- `PrefaceProcessor.add_preface`: no-op when disabled or when the
content is empty/blank, else insert the preface lines. -/
def add_preface (cfg : DocumentConfig) (doc : Document) : Document :=
  let p := cfg.structure'.documentStructure.preface
  if !p.enabled then doc
  else if pyStrip p.content = "" then doc
  else insertPrefaceToDocument doc p.content

end PrefaceProcessor

namespace AppendixProcessor

open DocxModel DocxConfig PyStr

/-- `appendix_keywords` of `_find_appendix_headings`. -/
def appendixKeywords : List String :=
  ["appendix", "приложение", "annex", "приложении",
   "приложению", "приложением", "appendices", "appendix",
   "appendix a", "appendix b", "приложение а", "приложение б"]

/-- The per-paragraph body of the `_find_appendix_headings` loop: a
`Heading*`-styled paragraph whose lowercased, stripped text holds one of
the keywords yields its (index, original text) pair. -/
def appendixTest (ip : Nat × Paragraph) : Option (Nat × String) :=
  if !pyStartsWith ip.2.style "Heading" then none
  else
    let textLower := pyStrip (pyLower ip.2.text)
    if appendixKeywords.any (fun kw => pyIn kw textLower) then
      some (ip.1, ip.2.text)
    else none

/-- `_find_appendix_headings`: the matching (index, original text) pairs
in document order. -/
def findAppendixHeadings (doc : Document) : List (Nat × String) :=
  doc.paragraphs.enum.filterMap appendixTest

/-- `_get_appendix_letter`: `A`–`Z` below 26, two letters while the first
index fits the alphabet, decimal `str(index + 1)` beyond. -/
def getAppendixLetter (index : Nat) : String :=
  let letters := "ABCDEFGHIJKLMNOPQRSTUVWXYZ"
  if index < letters.length then
    String.mk [letters.data.getD index 'A']
  else
    let firstLetterIdx := (index - 26) / 26
    let secondLetterIdx := (index - 26) % 26
    if firstLetterIdx < letters.length then
      String.mk [letters.data.getD firstLetterIdx 'A',
                 letters.data.getD secondLetterIdx 'A']
    else
      toString (index + 1)

/-- `original_text.split(':', 1)[1]`: everything after the first colon. -/
def afterFirstColon (s : String) : String :=
  String.mk ((s.data.dropWhile (fun c => c ≠ ':')).drop 1)

/-- The replacement text `_apply_appendix_numbering` computes for the
match with running index `appNumber` and original text `originalText`. -/
def appendixNewText (style : String) (appNumber : Nat) (originalText : String) : String :=
  let newText :=
    if style = "numbers" then "Appendix " ++ toString (appNumber + 1)
    else "Appendix " ++ getAppendixLetter appNumber
  if pyChrIn ':' originalText then
    newText ++ ": " ++ pyStrip (afterFirstColon originalText)
  else newText

/-- The `paragraph.text = new_text` assignment: content replaced by a
single run, style kept. -/
def setParagraphText (p : Paragraph) (text : String) : Paragraph :=
  { p with runs := [{ text := text }] }

/-- One iteration of the `_apply_appendix_numbering` loop: overwrite the
paragraph at the match's index with the computed replacement text (the
indices the enumeration produced are always in range; an out-of-range
index would be a Python `IndexError`, unreachable from `found`). -/
def appendixStep (style : String) (paras : List Paragraph)
    (m : Nat × (Nat × String)) : List Paragraph :=
  match paras[m.2.1]? with
  | some p => paras.set m.2.1 (setParagraphText p (appendixNewText style m.1 m.2.2))
  | none => paras

/-- `_apply_appendix_numbering`: walk the found headings with their
running index and overwrite each matched paragraph's text. -/
def applyAppendixNumbering (style : String) (paras : List Paragraph)
    (found : List (Nat × String)) : List Paragraph :=
  found.enum.foldl (appendixStep style) paras

/-- `AppendixProcessor.process_appendices`: no-op when disabled or when
no appendix heading found, else apply the numbering. -/
def process_appendices (cfg : DocumentConfig) (doc : Document) : Document :=
  let a := cfg.structure'.documentStructure.appendix
  if !a.enabled then doc
  else
    let found := findAppendixHeadings doc
    if found.isEmpty then doc
    else
      { doc with paragraphs := applyAppendixNumbering a.numberingStyle doc.paragraphs found }

end AppendixProcessor

namespace StageBoundary

open DocxModel

/-- A Python exception as the boundaries observe it: either the
project's `ProcessorError` or any other exception, with its message. -/
inductive PyExn where
  | processorError (msg : String)
  | pyError (msg : String)
deriving DecidableEq, Repr

/-- `str(e)`. -/
def PyExn.message : PyExn → String
  | .processorError m => m
  | .pyError m => m

/-- Whether an exception is (an instance of) `ProcessorError`. -/
def PyExn.isProcessorError : PyExn → Bool
  | .processorError _ => true
  | .pyError _ => false

/-- `StyleProcessor.apply`'s `try/except`: any exception from the body is
logged and re-raised as `ProcessorError(f"Ошибка применения стилей: {e}")`. -/
def stylesBoundary (r : Except PyExn Document) : Except PyExn Document :=
  match r with
  | .error e => .error (.processorError ("Ошибка применения стилей: " ++ e.message))
  | .ok d => .ok d

/-- `MarginsProcessor.apply`'s `try/except`: wraps into
`ProcessorError(f"Ошибка применения полей: {e}")`. -/
def marginsBoundary (r : Except PyExn Document) : Except PyExn Document :=
  match r with
  | .error e => .error (.processorError ("Ошибка применения полей: " ++ e.message))
  | .ok d => .ok d

/-- `HeaderFooterProcessor.apply`'s `try/except`: wraps into
`ProcessorError(f"Ошибка применения колонтитулов: {e}")`. -/
def headersBoundary (r : Except PyExn Document) : Except PyExn Document :=
  match r with
  | .error e => .error (.processorError ("Ошибка применения колонтитулов: " ++ e.message))
  | .ok d => .ok d

/-- `TitleProcessor.apply`'s `try/except`: wraps into
`ProcessorError(f"Ошибка добавления титульного листа: {e}")`. -/
def titleBoundary (r : Except PyExn Document) : Except PyExn Document :=
  match r with
  | .error e => .error (.processorError ("Ошибка добавления титульного листа: " ++ e.message))
  | .ok d => .ok d

/-- `SectionProcessor.apply_section_numbering` has no `try/except`: the
body's exception propagates as raised. -/
def sectionBoundary (r : Except PyExn Document) : Except PyExn Document := r

/-- `TOCProcessor.create_toc`'s `except`: logs and bare-`raise`s — the
original exception propagates unwrapped. -/
def tocBoundary (r : Except PyExn Document) : Except PyExn Document := r

/-- `PrefaceProcessor.add_preface`'s `except`: logs and bare-`raise`s. -/
def prefaceBoundary (r : Except PyExn Document) : Except PyExn Document := r

/-- `AppendixProcessor.process_appendices`'s `except`: logs and
bare-`raise`s. -/
def appendixBoundary (r : Except PyExn Document) : Except PyExn Document := r

end StageBoundary

namespace Fixtures

open DocxModel DocxConfig

/-- Headers enabled with plain fallback strings `left="L"`, `right="R"`
and empty parts lists. -/
def cfgHeadersLR : DocumentConfig :=
  { structure' := { numbering := { headers :=
      { left := "L", right := "R", enabled := true } } } }

/-- One body paragraph; one section whose live header/footer elements
each hold one empty paragraph (as a fresh python-docx section does). -/
def docOneSection : Document :=
  { paragraphs := [mkParagraph "body"]
    sections := [{ header := { paragraphs := [{}] }
                   footer := { paragraphs := [{}] }
                   evenPageHeader := { paragraphs := [{}] } }] }

/-- TOC enabled with the default title, page numbers and three levels. -/
def cfgTocOn : DocumentConfig :=
  { structure' := { documentStructure := { toc :=
      { enabled := true, title := "ОГЛАВЛЕНИЕ", pageNumbers := true, levels := 3 } } } }

/-- A document with two headings around a body paragraph. -/
def docWithHeadings : Document :=
  { paragraphs := [mkParagraph "Intro" "Heading 1", mkParagraph "body text",
                   mkParagraph "Sub" "Heading 2"] }

/-- Section numbering enabled. -/
def cfgSectionsOn : DocumentConfig :=
  { structure' := { documentStructure := { sections := { enabled := true } } } }

/-- A document of six heading paragraphs at depths `[0,1,2,1,0,1]` with
the given texts. -/
def docSixHeadings (t1 t2 t3 t4 t5 t6 : String) : Document :=
  { paragraphs := [mkParagraph t1 "Heading 1", mkParagraph t2 "Heading 2",
                   mkParagraph t3 "Heading 3", mkParagraph t4 "Heading 2",
                   mkParagraph t5 "Heading 1", mkParagraph t6 "Heading 2"] }

/-- Preface enabled with three content lines, one blank and padded. -/
def cfgPrefaceOn : DocumentConfig :=
  { structure' := { documentStructure := { preface :=
      { enabled := true, content := "Line one\n\n  Line two  \nLine three" } } } }

/-- Appendices enabled with letter numbering. -/
def cfgAppendixOn : DocumentConfig :=
  { structure' := { documentStructure := { appendix :=
      { enabled := true, numberingStyle := "letters" } } } }

/-- Two appendix headings (one with a colon, one without) among other
paragraphs. -/
def docAppendices : Document :=
  { paragraphs := [mkParagraph "Intro" "Heading 1"
                   , mkParagraph "Приложение: Data tables" "Heading 1"
                   , mkParagraph "plain text"
                   , mkParagraph "Appendix outline" "Heading 2"
                   , mkParagraph "Annex B: Extra" "Heading 1"] }

/-- Every optional feature disabled (the dataclass defaults, with the
section toggle off as well). -/
def cfgAllDisabled : DocumentConfig :=
  { structure' := { documentStructure := { sections := { enabled := false } } } }

/-- A small plain document with one section. -/
def docPlain : Document :=
  { paragraphs := [mkParagraph "Intro" "Heading 1", mkParagraph "text"]
    sections := [{ header := { paragraphs := [{}] } }] }

end Fixtures

namespace Shared

open DocxModel DocxConfig PyStr

/-- `String.join` distributes over cons. -/
theorem join_cons (s : String) (l : List String) :
    String.join (s :: l) = s ++ String.join l := by
  induction l generalizing s with
  | nil => simp [String.join]
  | cons x xs ih =>
    have h1 : String.join (s :: x :: xs) = String.join ((s ++ x) :: xs) := by
      simp [String.join]
    rw [h1, ih, ih, ← String.append_assoc]

/-- The text of a freshly created one-run paragraph is its text. -/
theorem mkParagraph_text (t st : String) : (mkParagraph t st).text = t := by
  simp [mkParagraph, Paragraph.text, join_cons, String.join]

/-- Inserting at the boundary of a known front prefix. -/
theorem insertIdx_at_len {α : Type} (front : List α) (x : α) (rest : List α) :
    List.insertIdx front.length x (front ++ rest) = front ++ x :: rest := by
  induction front with
  | nil => simp
  | cons a l ih => simp [List.insertIdx_succ_cons, ih]

/-- `setAlign` touches only the alignment. -/
theorem setAlign_runs (p : Paragraph) (a : Option String) :
    (HeaderFooterProcessor.setAlign p a).runs = p.runs := by
  unfold HeaderFooterProcessor.setAlign
  split <;> rfl

/-- After `_add_text_to_element` the element's first paragraph exists and
reads exactly the added text. -/
theorem addTextToElement_head_text (g : GeneralConfig) (e : HFElement)
    (t : String) (a : Option String) :
    ((HeaderFooterProcessor.addTextToElement g e t a).paragraphs.head?.map
      Paragraph.text) = some t := by
  unfold HeaderFooterProcessor.addTextToElement HeaderFooterProcessor.takeFirstParagraph
  cases h : e.paragraphs with
  | nil =>
    simp [Paragraph.text, setAlign_runs, Paragraph.clear, join_cons, String.join]
  | cons p rest =>
    simp [Paragraph.text, setAlign_runs, Paragraph.clear, join_cons, String.join]

end Shared

/-- C8.  With the corresponding feature disabled (`preface.enabled`,
`toc.enabled`, `appendix.enabled` or `headers.enabled` false), the
processor's entry point returns the document unchanged — paragraph
count, section count and all content identical. -/
theorem disabled_features_are_noops (cfg : DocxConfig.DocumentConfig)
    (doc : DocxModel.Document) :
    (cfg.structure'.documentStructure.preface.enabled = false →
      PrefaceProcessor.add_preface cfg doc = doc)
    ∧ (cfg.structure'.documentStructure.toc.enabled = false →
      TOCProcessor.create_toc cfg doc = doc)
    ∧ (cfg.structure'.documentStructure.appendix.enabled = false →
      AppendixProcessor.process_appendices cfg doc = doc)
    ∧ (cfg.structure'.numbering.headers.enabled = false →
      HeaderFooterProcessor.apply cfg doc = doc) := by
  refine ⟨fun h => ?_, fun h => ?_, fun h => ?_, fun h => ?_⟩
  · simp [PrefaceProcessor.add_preface, h]
  · simp [TOCProcessor.create_toc, h]
  · simp [AppendixProcessor.process_appendices, h]
  · simp [HeaderFooterProcessor.apply, h]

/-- Witness for C8: the all-disabled configuration leaves a concrete
document untouched by all four entry points. -/
theorem disabled_features_are_noops_witness :
    PrefaceProcessor.add_preface Fixtures.cfgAllDisabled Fixtures.docPlain = Fixtures.docPlain
    ∧ TOCProcessor.create_toc Fixtures.cfgAllDisabled Fixtures.docPlain = Fixtures.docPlain
    ∧ AppendixProcessor.process_appendices Fixtures.cfgAllDisabled Fixtures.docPlain = Fixtures.docPlain
    ∧ HeaderFooterProcessor.apply Fixtures.cfgAllDisabled Fixtures.docPlain = Fixtures.docPlain := by
  have h := disabled_features_are_noops Fixtures.cfgAllDisabled Fixtures.docPlain
  exact ⟨h.1 rfl, h.2.1 rfl, h.2.2.1 rfl, h.2.2.2 rfl⟩

/-- C3 counterexample.  The TOC stage does not wrap a failure of its
primary mutation in `ProcessorError`: its `except` clause bare-`raise`s,
so the original exception type reaches the caller, contradicting the
claim that every stage re-raises wrapped in a processor-specific error. -/
theorem toc_stage_error_not_wrapped :
    StageBoundary.tocBoundary (.error (.pyError "boom")) =
      .error (StageBoundary.PyExn.pyError "boom")
    ∧ (StageBoundary.PyExn.pyError "boom").isProcessorError = false :=
  ⟨rfl, rfl⟩

/-- C3 (amended).  No stage swallows an exception of its primary
mutation: styles, margins, headers and title re-raise it wrapped in
`ProcessorError` with a stage-specific message, while section numbering,
TOC, preface and appendix propagate the original exception unwrapped. -/
theorem stage_error_propagation (e : StageBoundary.PyExn) :
    StageBoundary.stylesBoundary (.error e) =
      .error (.processorError ("Ошибка применения стилей: " ++ e.message))
    ∧ StageBoundary.marginsBoundary (.error e) =
      .error (.processorError ("Ошибка применения полей: " ++ e.message))
    ∧ StageBoundary.headersBoundary (.error e) =
      .error (.processorError ("Ошибка применения колонтитулов: " ++ e.message))
    ∧ StageBoundary.titleBoundary (.error e) =
      .error (.processorError ("Ошибка добавления титульного листа: " ++ e.message))
    ∧ StageBoundary.sectionBoundary (.error e) = .error e
    ∧ StageBoundary.tocBoundary (.error e) = .error e
    ∧ StageBoundary.prefaceBoundary (.error e) = .error e
    ∧ StageBoundary.appendixBoundary (.error e) = .error e :=
  ⟨rfl, rfl, rfl, rfl, rfl, rfl, rfl, rfl⟩

/-- Witness for C3: the propagation behaviour at one concrete
exception. -/
theorem stage_error_propagation_witness :
    StageBoundary.stylesBoundary (.error (.pyError "zap")) =
      .error (.processorError ("Ошибка применения стилей: " ++
        (StageBoundary.PyExn.pyError "zap").message))
    ∧ StageBoundary.marginsBoundary (.error (.pyError "zap")) =
      .error (.processorError ("Ошибка применения полей: " ++
        (StageBoundary.PyExn.pyError "zap").message))
    ∧ StageBoundary.headersBoundary (.error (.pyError "zap")) =
      .error (.processorError ("Ошибка применения колонтитулов: " ++
        (StageBoundary.PyExn.pyError "zap").message))
    ∧ StageBoundary.titleBoundary (.error (.pyError "zap")) =
      .error (.processorError ("Ошибка добавления титульного листа: " ++
        (StageBoundary.PyExn.pyError "zap").message))
    ∧ StageBoundary.sectionBoundary (.error (.pyError "zap")) = .error (.pyError "zap")
    ∧ StageBoundary.tocBoundary (.error (.pyError "zap")) = .error (.pyError "zap")
    ∧ StageBoundary.prefaceBoundary (.error (.pyError "zap")) = .error (.pyError "zap")
    ∧ StageBoundary.appendixBoundary (.error (.pyError "zap")) = .error (.pyError "zap") :=
  stage_error_propagation (.pyError "zap")

/-- C1 counterexample.  With headers enabled, empty parts lists and plain
strings `left="L"`, `right="R"`, the primary (odd) header reads `"L"` —
the configured `left`, not `"R"` — and the even header reads `"R"`: the
crossed mapping the claim states does not hold for the plain-string
fallbacks. -/
theorem headers_cross_claim_false :
    ((HeaderFooterProcessor.apply Fixtures.cfgHeadersLR Fixtures.docOneSection).sections.map
      (fun s => s.header.paragraphs.head?.map DocxModel.Paragraph.text)) = [some "L"]
    ∧ ((HeaderFooterProcessor.apply Fixtures.cfgHeadersLR Fixtures.docOneSection).sections.map
      (fun s => s.evenPageHeader.paragraphs.head?.map DocxModel.Paragraph.text)) = [some "R"]
    ∧ (some "L" : Option String) ≠ some "R" := by
  refine ⟨rfl, rfl, by decide⟩

/-- C1 (amended).  With headers enabled and both parts lists empty, every
section's primary (odd) header paragraph reads the config's plain `left`
string and its even-page header paragraph reads the plain `right` string
(the crossed convention applies to `right_parts`/`left_parts`, not to the
plain fallbacks). -/
theorem headers_fallback_uses_left_for_odd (cfg : DocxConfig.DocumentConfig)
    (doc : DocxModel.Document)
    (hEn : cfg.structure'.numbering.headers.enabled = true)
    (hR : cfg.structure'.numbering.headers.rightParts = [])
    (hL : cfg.structure'.numbering.headers.leftParts = []) :
    ((HeaderFooterProcessor.apply cfg doc).sections.map
      (fun s => (s.header.paragraphs.head?.map DocxModel.Paragraph.text,
                 s.evenPageHeader.paragraphs.head?.map DocxModel.Paragraph.text)))
    = doc.sections.map (fun _ =>
        (some cfg.structure'.numbering.headers.left,
         some cfg.structure'.numbering.headers.right)) := by
  simp only [HeaderFooterProcessor.apply, hEn, Bool.not_true, Bool.false_eq_true,
    if_false, HeaderFooterProcessor.applyHeadersFooters, List.map_map]
  refine List.map_congr_left (fun sec _ => ?_)
  simp only [Function.comp, HeaderFooterProcessor.processSection, hR, hL,
    List.isEmpty_nil, Bool.not_true, Bool.false_eq_true, if_false]
  split <;> simp [Shared.addTextToElement_head_text]

/-- Witness for C1: the amended mapping at the concrete `L`/`R` config. -/
theorem headers_fallback_uses_left_for_odd_witness :
    ((HeaderFooterProcessor.apply Fixtures.cfgHeadersLR Fixtures.docOneSection).sections.map
      (fun s => (s.header.paragraphs.head?.map DocxModel.Paragraph.text,
                 s.evenPageHeader.paragraphs.head?.map DocxModel.Paragraph.text)))
    = Fixtures.docOneSection.sections.map (fun _ =>
        (some Fixtures.cfgHeadersLR.structure'.numbering.headers.left,
         some Fixtures.cfgHeadersLR.structure'.numbering.headers.right)) :=
  headers_fallback_uses_left_for_odd Fixtures.cfgHeadersLR Fixtures.docOneSection rfl rfl rfl

namespace Shared

open DocxModel DocxConfig PyStr

/-- `insertOrAppend` at the length of a known front prefix, with a
nonempty tail, inserts between the two. -/
theorem insertOrAppend_at_front (front : List Paragraph) (p : Paragraph)
    (rest : List Paragraph) (hrest : rest ≠ []) :
    insertOrAppend front.length p (front ++ rest) = front ++ p :: rest := by
  have hane : front ++ rest ≠ [] := by
    intro hc
    rcases List.append_eq_nil.mp hc with ⟨_, h2⟩
    exact hrest h2
  have hrl : 0 < rest.length := List.length_pos.mpr hrest
  unfold insertOrAppend
  rw [if_pos ⟨by simp [hane], by rw [List.length_append]; omega⟩]
  exact insertIdx_at_len front p rest

/-- `insertOrAppend` at index 0 on a nonempty list is cons. -/
theorem insertOrAppend_zero (p : Paragraph) (ps : List Paragraph)
    (hne : ps ≠ []) : insertOrAppend 0 p ps = p :: ps := by
  have := insertOrAppend_at_front [] p ps hne
  simpa using this

/-- The TOC-line insertion loop keeps a growing front prefix of length
`i + 2` ahead of the untouched original tail: each line lands between the
front and the tail, so the lines appear in construction order. -/
theorem tocLineStep_fold (lines : List String) : ∀ (i0 : Nat)
    (front rest : List Paragraph), rest ≠ [] → front.length = i0 + 2 →
    (List.enumFrom i0 lines).foldl (TOCProcessor.tocLineStep 0) (front ++ rest)
      = front ++ lines.map (fun l => mkParagraph l "Normal") ++ rest := by
  induction lines with
  | nil => intro i0 front rest _ _; simp
  | cons l ls ih =>
    intro i0 front rest hrest hlen
    have hstep : TOCProcessor.tocLineStep 0 (front ++ rest) (i0, l)
        = (front ++ [mkParagraph l "Normal"]) ++ rest := by
      unfold TOCProcessor.tocLineStep
      have hidx : 0 + i0 + 2 = front.length := by omega
      rw [hidx, insertOrAppend_at_front front _ rest hrest]
      simp
    have hrec := ih (i0 + 1) (front ++ [mkParagraph l "Normal"]) rest hrest
      (by simp [hlen])
    calc (List.enumFrom i0 (l :: ls)).foldl (TOCProcessor.tocLineStep 0) (front ++ rest)
        = (List.enumFrom (i0 + 1) ls).foldl (TOCProcessor.tocLineStep 0)
            ((front ++ [mkParagraph l "Normal"]) ++ rest) := by
          simp [List.enumFrom, hstep]
      _ = (front ++ [mkParagraph l "Normal"])
            ++ ls.map (fun l => mkParagraph l "Normal") ++ rest := hrec
      _ = front ++ (l :: ls).map (fun l => mkParagraph l "Normal") ++ rest := by
          simp

/-- `_insert_toc_to_document` on a nonempty document: the final paragraph
list starts with the blank spacer, then the Heading-1 title, then the
lines in order, then the trailing blank spacer, then the original
paragraphs. -/
theorem insertToc_paragraphs (cfg : DocumentConfig) (doc : Document)
    (lines : List String) (hne : doc.paragraphs ≠ []) :
    (TOCProcessor.insertTocToDocument cfg doc lines).paragraphs
      = mkParagraph ""
        :: mkParagraph cfg.structure'.documentStructure.toc.title "Heading 1"
        :: (lines.map (fun l => mkParagraph l "Normal")
            ++ mkParagraph "" :: doc.paragraphs) := by
  simp only [TOCProcessor.insertTocToDocument]
  rw [insertOrAppend_zero _ _ hne]
  rw [insertOrAppend_zero _ _ (by simp)]
  have s3 : (List.enum lines).foldl (TOCProcessor.tocLineStep 0)
        (mkParagraph ""
          :: mkParagraph cfg.structure'.documentStructure.toc.title "Heading 1"
          :: doc.paragraphs)
      = ([mkParagraph "",
          mkParagraph cfg.structure'.documentStructure.toc.title "Heading 1"]
          ++ lines.map (fun l => mkParagraph l "Normal"))
        ++ doc.paragraphs := by
    have := tocLineStep_fold lines 0
      [mkParagraph "",
       mkParagraph cfg.structure'.documentStructure.toc.title "Heading 1"]
      doc.paragraphs hne rfl
    simpa using this
  rw [s3]
  have hfrontlen : 0 + lines.length + 2
      = ([mkParagraph "",
          mkParagraph cfg.structure'.documentStructure.toc.title "Heading 1"]
         ++ lines.map (fun l => mkParagraph l "Normal")).length := by
    simp
  rw [hfrontlen, insertOrAppend_at_front _ _ _ hne]
  simp

end Shared

/-- C2 counterexample.  On a concrete document with headings, the first
paragraph after `create_toc` is the blank spacer, not the Heading-1 title
"ОГЛАВЛЕНИЕ": the title does not become the first paragraph of the
document as the claim states. -/
theorem toc_title_not_first_paragraph :
    ((TOCProcessor.create_toc Fixtures.cfgTocOn Fixtures.docWithHeadings).paragraphs.head?.map
      DocxModel.Paragraph.text) = some ""
    ∧ Fixtures.cfgTocOn.structure'.documentStructure.toc.title = "ОГЛАВЛЕНИЕ"
    ∧ (some "" : Option String) ≠ some "ОГЛАВЛЕНИЕ" :=
  ⟨rfl, rfl, by decide⟩

/-- C2 (amended).  When TOC is enabled and the document is nonempty with
at least one heading, `create_toc` prepends, in final on-page order: a
blank spacer paragraph first, then the Heading-1 title paragraph, then
every formatted TOC line as a Normal-styled paragraph in construction
order, then a trailing blank spacer, followed by the original
paragraphs — so the blank spacer (not the title) becomes the first
paragraph and the title the second. -/
theorem toc_insertion_order (cfg : DocxConfig.DocumentConfig)
    (doc : DocxModel.Document)
    (hEn : cfg.structure'.documentStructure.toc.enabled = true)
    (hne : doc.paragraphs ≠ [])
    (hh : TOCProcessor.extractHeadings doc ≠ []) :
    (TOCProcessor.create_toc cfg doc).paragraphs
      = DocxModel.mkParagraph ""
        :: DocxModel.mkParagraph cfg.structure'.documentStructure.toc.title "Heading 1"
        :: ((TOCProcessor.buildTocLines cfg (TOCProcessor.buildTocEntries cfg doc)).map
              (fun l => DocxModel.mkParagraph l "Normal")
            ++ DocxModel.mkParagraph "" :: doc.paragraphs) := by
  have h1 : (TOCProcessor.extractHeadings doc).isEmpty = false := by simp [hh]
  simp only [TOCProcessor.create_toc, hEn, h1, Bool.not_true, Bool.false_eq_true,
    if_false]
  exact Shared.insertToc_paragraphs cfg doc _ hne

/-- Witness for C2: the amended insertion order at a concrete document
with two headings. -/
theorem toc_insertion_order_witness :
    (TOCProcessor.create_toc Fixtures.cfgTocOn Fixtures.docWithHeadings).paragraphs
      = DocxModel.mkParagraph ""
        :: DocxModel.mkParagraph
            Fixtures.cfgTocOn.structure'.documentStructure.toc.title "Heading 1"
        :: ((TOCProcessor.buildTocLines Fixtures.cfgTocOn
              (TOCProcessor.buildTocEntries Fixtures.cfgTocOn Fixtures.docWithHeadings)).map
              (fun l => DocxModel.mkParagraph l "Normal")
            ++ DocxModel.mkParagraph "" :: Fixtures.docWithHeadings.paragraphs) :=
  toc_insertion_order Fixtures.cfgTocOn Fixtures.docWithHeadings rfl
    (by decide) (by decide)

namespace Shared

open DocxModel DocxConfig PyStr

/-- The preface line loop: each surviving (nonblank) line is consed in
front of the accumulated list, so the nonblank stripped lines end up in
reverse order ahead of the original paragraphs. -/
theorem prefaceLineStep_fold (lines : List String) : ∀ (ps : List Paragraph),
    ps ≠ [] →
    lines.foldl PrefaceProcessor.prefaceLineStep ps
      = ((lines.map pyStrip).filter (fun l => l ≠ "")).reverse.map
          (fun l => mkParagraph l "Normal") ++ ps := by
  induction lines with
  | nil => intro ps _; simp
  | cons l ls ih =>
    intro ps hne
    by_cases hl : pyStrip l = ""
    · have hstep : PrefaceProcessor.prefaceLineStep ps l = ps := by
        simp [PrefaceProcessor.prefaceLineStep, hl]
      simp only [List.foldl_cons, hstep, ih ps hne, List.map_cons, List.filter_cons,
        hl]
      simp
    · have hstep : PrefaceProcessor.prefaceLineStep ps l
          = mkParagraph (pyStrip l) "Normal" :: ps := by
        simp only [PrefaceProcessor.prefaceLineStep, if_neg hl]
        exact insertOrAppend_zero _ _ hne
      have hrec := ih (mkParagraph (pyStrip l) "Normal" :: ps) (by simp)
      simp only [List.foldl_cons, hstep, hrec, List.map_cons, List.filter_cons]
      simp [hl]

end Shared

/-- C9.  With the preface enabled, nonblank content and a nonempty
document, `add_preface` puts the nonblank stripped content lines at the
start of the document in reverse content order (the last line first, the
first line immediately before the original first paragraph), because
each successive line is inserted before the current first paragraph. -/
theorem preface_lines_inserted_in_reverse (cfg : DocxConfig.DocumentConfig)
    (doc : DocxModel.Document)
    (hEn : cfg.structure'.documentStructure.preface.enabled = true)
    (hne : doc.paragraphs ≠ [])
    (hc : PyStr.pyStrip cfg.structure'.documentStructure.preface.content ≠ "") :
    (PrefaceProcessor.add_preface cfg doc).paragraphs
      = (((PyStr.pySplitChar '\n' cfg.structure'.documentStructure.preface.content).map
            PyStr.pyStrip).filter (fun l => l ≠ "")).reverse.map
          (fun l => DocxModel.mkParagraph l "Normal") ++ doc.paragraphs := by
  simp only [PrefaceProcessor.add_preface, hEn, Bool.not_true, Bool.false_eq_true,
    if_false, if_neg hc, PrefaceProcessor.insertPrefaceToDocument]
  exact Shared.prefaceLineStep_fold _ doc.paragraphs hne

/-- Witness for C9: the reverse insertion at a concrete three-line
content (with a blank line and padding) over a one-paragraph document. -/
theorem preface_lines_inserted_in_reverse_witness :
    (PrefaceProcessor.add_preface Fixtures.cfgPrefaceOn
        { paragraphs := [DocxModel.mkParagraph "orig"] }).paragraphs
      = (((PyStr.pySplitChar '\n'
            Fixtures.cfgPrefaceOn.structure'.documentStructure.preface.content).map
            PyStr.pyStrip).filter (fun l => l ≠ "")).reverse.map
          (fun l => DocxModel.mkParagraph l "Normal")
        ++ [DocxModel.mkParagraph "orig"] :=
  preface_lines_inserted_in_reverse Fixtures.cfgPrefaceOn
    { paragraphs := [DocxModel.mkParagraph "orig"] } rfl (by decide) (by decide)

/-- C5.  When `_process_heading` sees a depth-1 heading whose stripped
text already starts with `"2.1 "`, it parses the leading number and sets
the counter vector to exactly `[2, 1, 0]` — whatever the previous
counters were, with no increment — and returns the paragraph
unmodified. -/
theorem section_numbering_existing_number (p : DocxModel.Paragraph) (nums : List ℤ)
    (r : String)
    (hlen : nums.length = 3)
    (htext : PyStr.pyStrip p.text = "2.1 " ++ r) :
    SectionProcessor.processHeading p 1 nums = (p, [2, 1, 0]) := by
  obtain ⟨a, b, c, rfl⟩ := List.length_eq_three.mp hlen
  have hdata : (("2.1 " ++ r) : String).data = '2' :: '.' :: '1' :: ' ' :: r.data := by
    rw [String.data_append]
    rfl
  have hdigit : SectionProcessor.startsWithDigit ("2.1 " ++ r) = true := by
    unfold SectionProcessor.startsWithDigit
    rw [hdata]
    rfl
  have hfind : (("2.1 " ++ r) : String).data.findIdx? (fun c => c = ' ') = some 3 := by
    rw [hdata]
    simp [List.findIdx?_cons]
  have htake : (("2.1 " ++ r) : String).data.take 3 = ['2', '.', '1'] := by
    rw [hdata]
    rfl
  simp only [SectionProcessor.processHeading, htext]
  rw [if_pos hdigit]
  simp only [SectionProcessor.parseAndUpdateFromExisting, hfind, htake]
  rfl

/-- Witness for C5: a concrete "2.1 Overview" heading over the counter
state `[7, 9, 4]`. -/
theorem section_numbering_existing_number_witness :
    SectionProcessor.processHeading
        (DocxModel.mkParagraph "2.1 Overview" "Heading 2") 1 [7, 9, 4]
      = (DocxModel.mkParagraph "2.1 Overview" "Heading 2", [2, 1, 0]) :=
  section_numbering_existing_number
    (DocxModel.mkParagraph "2.1 Overview" "Heading 2") [7, 9, 4] "Overview"
    rfl (by decide)

/-- C4.  With section numbering enabled and counters starting at
`[0,0,0]`, a document whose six heading paragraphs sit at depths
`[0,1,2,1,0,1]` (texts not digit-leading) comes out numbered exactly
`"1"`, `"1.1"`, `"1.1.1"`, `"1.2"`, `"2"`, `"2.1"`: each heading bumps
the counter at its depth, zeroes the deeper ones, and the dot-joined
number plus a space is prefixed to the original text. -/
theorem section_numbering_depth_sequence (cfg : DocxConfig.DocumentConfig)
    (t1 t2 t3 t4 t5 t6 : String)
    (hEn : cfg.structure'.documentStructure.sections.enabled = true)
    (h1 : SectionProcessor.startsWithDigit (PyStr.pyStrip t1) = false)
    (h2 : SectionProcessor.startsWithDigit (PyStr.pyStrip t2) = false)
    (h3 : SectionProcessor.startsWithDigit (PyStr.pyStrip t3) = false)
    (h4 : SectionProcessor.startsWithDigit (PyStr.pyStrip t4) = false)
    (h5 : SectionProcessor.startsWithDigit (PyStr.pyStrip t5) = false)
    (h6 : SectionProcessor.startsWithDigit (PyStr.pyStrip t6) = false) :
    (SectionProcessor.apply_section_numbering cfg
        (Fixtures.docSixHeadings t1 t2 t3 t4 t5 t6)).paragraphs.map
      DocxModel.Paragraph.text
    = ["1 " ++ PyStr.pyStrip t1, "1.1 " ++ PyStr.pyStrip t2,
       "1.1.1 " ++ PyStr.pyStrip t3, "1.2 " ++ PyStr.pyStrip t4,
       "2 " ++ PyStr.pyStrip t5, "2.1 " ++ PyStr.pyStrip t6] := by
  have hl1 : SectionProcessor.HEADING_LEVELS.lookup "Heading 1" = some 0 := rfl
  have hl2 : SectionProcessor.HEADING_LEVELS.lookup "Heading 2" = some 1 := rfl
  have hl3 : SectionProcessor.HEADING_LEVELS.lookup "Heading 3" = some 2 := rfl
  have u1 : SectionProcessor.updateSectionNumber 0 [0, 0, 0] = [1, 0, 0] := rfl
  have u2 : SectionProcessor.updateSectionNumber 1 [1, 0, 0] = [1, 1, 0] := rfl
  have u3 : SectionProcessor.updateSectionNumber 2 [1, 1, 0] = [1, 1, 1] := rfl
  have u4 : SectionProcessor.updateSectionNumber 1 [1, 1, 1] = [1, 2, 0] := rfl
  have u5 : SectionProcessor.updateSectionNumber 0 [1, 2, 0] = [2, 0, 0] := rfl
  have u6 : SectionProcessor.updateSectionNumber 1 [2, 0, 0] = [2, 1, 0] := rfl
  have g1 : SectionProcessor.getSectionNumber 0 [1, 0, 0] = "1" := rfl
  have g2 : SectionProcessor.getSectionNumber 1 [1, 1, 0] = "1.1" := rfl
  have g3 : SectionProcessor.getSectionNumber 2 [1, 1, 1] = "1.1.1" := rfl
  have g4 : SectionProcessor.getSectionNumber 1 [1, 2, 0] = "1.2" := rfl
  have g5 : SectionProcessor.getSectionNumber 0 [2, 0, 0] = "2" := rfl
  have g6 : SectionProcessor.getSectionNumber 1 [2, 1, 0] = "2.1" := rfl
  have jnil : String.join [] = "" := rfl
  simp only [SectionProcessor.apply_section_numbering, hEn, Bool.not_true,
    Bool.false_eq_true, if_false, Fixtures.docSixHeadings, DocxModel.mkParagraph,
    List.foldl_cons, List.foldl_nil, SectionProcessor.numberingStep,
    SectionProcessor.processHeading, DocxModel.Paragraph.text, List.map_cons,
    List.map_nil, Shared.join_cons, jnil, String.append_empty, hl1, hl2, hl3,
    h1, h2, h3, h4, h5, h6, u1, u2, u3, u4, u5, u6, g1, g2, g3, g4, g5, g6,
    Bool.false_eq_true, if_false, List.append_assoc, List.cons_append,
    List.nil_append]
  have a1 : "1" ++ " " = "1 " := rfl
  have a2 : "1.1" ++ " " = "1.1 " := rfl
  have a3 : "1.1.1" ++ " " = "1.1.1 " := rfl
  have a4 : "1.2" ++ " " = "1.2 " := rfl
  have a5 : "2" ++ " " = "2 " := rfl
  have a6 : "2.1" ++ " " = "2.1 " := rfl
  simp only [String.empty_append, a1, a2, a3, a4, a5, a6]

/-- Witness for C4: the six-heading numbering at concrete texts. -/
theorem section_numbering_depth_sequence_witness :
    (SectionProcessor.apply_section_numbering Fixtures.cfgSectionsOn
        (Fixtures.docSixHeadings "A" "B" "C" "D" "E" "F")).paragraphs.map
      DocxModel.Paragraph.text
    = ["1 " ++ PyStr.pyStrip "A", "1.1 " ++ PyStr.pyStrip "B",
       "1.1.1 " ++ PyStr.pyStrip "C", "1.2 " ++ PyStr.pyStrip "D",
       "2 " ++ PyStr.pyStrip "E", "2.1 " ++ PyStr.pyStrip "F"] :=
  section_numbering_depth_sequence Fixtures.cfgSectionsOn "A" "B" "C" "D" "E" "F"
    rfl (by decide) (by decide) (by decide) (by decide) (by decide) (by decide)

/-- C10.  `_get_appendix_letter` is total but changes representation:
for `26 ≤ index ≤ 701` it returns a two-character code of capital Latin
letters (26 ↦ "AA", 51 ↦ "AZ", 52 ↦ "BA"), and for every `index ≥ 702`
it returns the decimal numeral `str(index + 1)` instead of letters. -/
theorem appendix_letter_high_indices :
    (∀ i : Nat, 26 ≤ i → i ≤ 701 →
      (AppendixProcessor.getAppendixLetter i).data.length = 2
      ∧ ∀ c ∈ (AppendixProcessor.getAppendixLetter i).data, 'A' ≤ c ∧ c ≤ 'Z')
    ∧ AppendixProcessor.getAppendixLetter 26 = "AA"
    ∧ AppendixProcessor.getAppendixLetter 51 = "AZ"
    ∧ AppendixProcessor.getAppendixLetter 52 = "BA"
    ∧ ∀ i : Nat, 702 ≤ i →
        AppendixProcessor.getAppendixLetter i = toString (i + 1) := by
  have hAZ : ∀ k : Fin 26,
      'A' ≤ ("ABCDEFGHIJKLMNOPQRSTUVWXYZ" : String).data.getD k 'A'
      ∧ ("ABCDEFGHIJKLMNOPQRSTUVWXYZ" : String).data.getD k 'A' ≤ 'Z' := by
    decide
  refine ⟨?_, rfl, rfl, rfl, ?_⟩
  · intro i h26 h701
    have hnlt : ¬ i < ("ABCDEFGHIJKLMNOPQRSTUVWXYZ" : String).length := by
      show ¬ i < 26
      omega
    have hfirst : (i - 26) / 26 < 26 := by
      have : i - 26 < 26 * 26 := by omega
      exact Nat.div_lt_iff_lt_mul (by norm_num) |>.mpr this
    have hfirst' : (i - 26) / 26 < ("ABCDEFGHIJKLMNOPQRSTUVWXYZ" : String).length := by
      show (i - 26) / 26 < 26
      exact hfirst
    have hsecond : (i - 26) % 26 < 26 := Nat.mod_lt _ (by norm_num)
    simp only [AppendixProcessor.getAppendixLetter, hnlt, if_false]
    rw [if_pos hfirst']
    refine ⟨rfl, ?_⟩
    intro c hc
    rcases List.mem_pair.mp hc with h | h
    · subst h; exact hAZ ⟨(i - 26) / 26, hfirst⟩
    · subst h; exact hAZ ⟨(i - 26) % 26, hsecond⟩
  · intro i h702
    have hnlt : ¬ i < ("ABCDEFGHIJKLMNOPQRSTUVWXYZ" : String).length := by
      show ¬ i < 26
      omega
    have hge : ¬ (i - 26) / 26 < ("ABCDEFGHIJKLMNOPQRSTUVWXYZ" : String).length := by
      show ¬ (i - 26) / 26 < 26
      have : 26 * 26 ≤ i - 26 := by omega
      have := (Nat.le_div_iff_mul_le (k := 26) (by norm_num)).mpr this
      omega
    simp only [AppendixProcessor.getAppendixLetter, hnlt, if_false, hge]

/-- Witness for C10: index 100 yields a two-letter code and index 800
yields the numeral "801". -/
theorem appendix_letter_high_indices_witness :
    (AppendixProcessor.getAppendixLetter 100).data.length = 2
    ∧ AppendixProcessor.getAppendixLetter 800 = toString (800 + 1) :=
  ⟨(appendix_letter_high_indices.1 100 (by decide) (by decide)).1,
   appendix_letter_high_indices.2.2.2.2 800 (by decide)⟩

namespace Shared

open DocxModel DocxConfig PyStr

/-- `appendixTest` keeps the enumeration index of a match. -/
theorem appendixTest_fst (k : Nat) (p : Paragraph) (pr : Nat × String)
    (h : AppendixProcessor.appendixTest (k, p) = some pr) : pr.1 = k := by
  unfold AppendixProcessor.appendixTest at h
  by_cases h1 : (!PyStr.pyStartsWith p.style "Heading") = true
  · rw [if_pos h1] at h
    cases h
  · rw [if_neg h1] at h
    by_cases h2 : (AppendixProcessor.appendixKeywords.any
        (fun kw => pyIn kw (pyStrip (pyLower p.text)))) = true
    · rw [if_pos h2] at h
      cases h
      rfl
    · rw [if_neg h2] at h
      cases h

/-- Indices produced by the appendix scan over `enumFrom k0` lie in
`[k0, k0 + length)`. -/
theorem appendixScan_bounds : ∀ (ps : List Paragraph) (k0 : Nat)
    (pr : Nat × String),
    pr ∈ (List.enumFrom k0 ps).filterMap AppendixProcessor.appendixTest →
    k0 ≤ pr.1 ∧ pr.1 < k0 + ps.length := by
  intro ps
  induction ps with
  | nil => intro k0 pr h; simp at h
  | cons p rest ih =>
    intro k0 pr h
    rw [List.enumFrom, List.filterMap_cons] at h
    cases hh : AppendixProcessor.appendixTest (k0, p) with
    | none =>
      rw [hh] at h
      have := ih (k0 + 1) pr h
      constructor
      · omega
      · simp only [List.length_cons]
        omega
    | some pr0 =>
      rw [hh] at h
      rcases List.mem_cons.mp h with h1 | h1
      · subst h1
        have := appendixTest_fst k0 p pr hh
        constructor
        · omega
        · simp only [List.length_cons]
          omega
      · have := ih (k0 + 1) pr h1
        constructor
        · omega
        · simp only [List.length_cons]
          omega

/-- The appendix scan produces strictly increasing indices. -/
theorem appendixScan_pairwise : ∀ (ps : List Paragraph) (k0 : Nat),
    List.Pairwise (fun a b => a.1 < b.1)
      ((List.enumFrom k0 ps).filterMap AppendixProcessor.appendixTest) := by
  intro ps
  induction ps with
  | nil => intro k0; simp
  | cons p rest ih =>
    intro k0
    rw [List.enumFrom, List.filterMap_cons]
    cases hh : AppendixProcessor.appendixTest (k0, p) with
    | none => exact ih (k0 + 1)
    | some pr0 =>
      refine List.Pairwise.cons ?_ (ih (k0 + 1))
      intro b hb
      have hfst := appendixTest_fst k0 p pr0 hh
      have := (appendixScan_bounds rest (k0 + 1) b hb).1
      omega

/-- Folding the appendix replacement loop never touches an index outside
the match list. -/
theorem appendixFold_get_other (style : String) : ∀ (fnd : List (Nat × String))
    (k0 : Nat) (paras : List Paragraph) (i : Nat),
    i ∉ fnd.map Prod.fst →
    ((List.enumFrom k0 fnd).foldl (AppendixProcessor.appendixStep style) paras)[i]?
      = paras[i]? := by
  intro fnd
  induction fnd with
  | nil => intro k0 paras i _; rfl
  | cons m rest ih =>
    intro k0 paras i hi
    have hne : m.1 ≠ i := by
      intro hc
      exact hi (by simp [← hc])
    have hrest : i ∉ rest.map Prod.fst := by
      intro hc
      exact hi (by simp [hc])
    rw [List.enumFrom, List.foldl_cons]
    cases hh : paras[m.1]? with
    | none =>
      rw [show AppendixProcessor.appendixStep style paras (k0, m) = paras by
        simp [AppendixProcessor.appendixStep, hh]]
      exact ih (k0 + 1) paras i hrest
    | some p =>
      rw [show AppendixProcessor.appendixStep style paras (k0, m)
          = paras.set m.1 (AppendixProcessor.setParagraphText p
              (AppendixProcessor.appendixNewText style k0 m.2)) by
        simp [AppendixProcessor.appendixStep, hh]]
      rw [ih (k0 + 1) _ i hrest]
      exact List.getElem?_set_ne hne

/-- Folding the appendix replacement loop rewrites the paragraph at the
`j`-th match's index with the text computed from running index `k0 + j`
and the match's original text. -/
theorem appendixFold_get_match (style : String) : ∀ (fnd : List (Nat × String))
    (k0 : Nat) (paras : List Paragraph),
    List.Pairwise (fun a b => a.1 < b.1) fnd →
    (∀ it ∈ fnd, it.1 < paras.length) →
    ∀ (j idx : Nat) (orig : String), fnd[j]? = some (idx, orig) →
    ∃ p, paras[idx]? = some p ∧
      ((List.enumFrom k0 fnd).foldl (AppendixProcessor.appendixStep style) paras)[idx]?
        = some (AppendixProcessor.setParagraphText p
            (AppendixProcessor.appendixNewText style (k0 + j) orig)) := by
  intro fnd
  induction fnd with
  | nil => intro k0 paras _ _ j idx orig hj; simp at hj
  | cons m rest ih =>
    intro k0 paras hpw hbound j idx orig hj
    have hm : m.1 < paras.length := hbound m (List.mem_cons_self m rest)
    have hp0 : paras[m.1]? = some paras[m.1] := List.getElem?_eq_getElem hm
    have hstep : AppendixProcessor.appendixStep style paras (k0, m)
        = paras.set m.1 (AppendixProcessor.setParagraphText paras[m.1]
            (AppendixProcessor.appendixNewText style k0 m.2)) := by
      simp [AppendixProcessor.appendixStep, hp0]
    rw [List.enumFrom, List.foldl_cons, hstep]
    cases j with
    | zero =>
      simp only [List.getElem?_cons_zero] at hj
      have hmeq : m = (idx, orig) := by injection hj
      subst hmeq
      refine ⟨_, hp0, ?_⟩
      have hnot : idx ∉ rest.map Prod.fst := by
        intro hc
        rcases List.mem_map.mp hc with ⟨b, hb, hfst⟩
        have := (List.pairwise_cons.mp hpw).1 b hb
        omega
      rw [appendixFold_get_other style rest (k0 + 1) _ idx hnot]
      rw [Nat.add_zero]
      have hlt : (idx, orig).1 < (paras.set (idx, orig).1
          (AppendixProcessor.setParagraphText paras[(idx, orig).1]
            (AppendixProcessor.appendixNewText style k0 (idx, orig).2))).length := by
        simpa using hm
      rw [List.getElem?_eq_getElem hlt]
      simp
    | succ n =>
      simp only [List.getElem?_cons_succ] at hj
      have hmem : (idx, orig) ∈ rest := List.getElem?_mem hj
      have hlt : m.1 < idx := (List.pairwise_cons.mp hpw).1 (idx, orig) hmem
      have hbound' : ∀ it ∈ rest, it.1
          < (paras.set m.1 (AppendixProcessor.setParagraphText paras[m.1]
              (AppendixProcessor.appendixNewText style k0 m.2))).length := by
        intro it hit
        simpa using hbound it (List.mem_cons_of_mem m hit)
      obtain ⟨p, hp, hres⟩ := ih (k0 + 1) _ (List.pairwise_cons.mp hpw).2 hbound'
        n idx orig hj
      rw [List.getElem?_set_ne (Nat.ne_of_lt hlt)] at hp
      refine ⟨p, hp, ?_⟩
      have harith : k0 + 1 + n = k0 + (n + 1) := by omega
      rw [hres, harith]

end Shared

/-- C7.  With appendices enabled and letter style, the letter function
maps 0..4 to A..E and 26 to "AA"; and each matched appendix heading, in
order of appearance with running index `j`, gets its text replaced by
`"Appendix " + letter(j)`, extended by `": " + description` exactly when
the original heading text contained a colon. -/
theorem appendix_lettering_and_replacement (cfg : DocxConfig.DocumentConfig)
    (doc : DocxModel.Document)
    (hEn : cfg.structure'.documentStructure.appendix.enabled = true)
    (hStyle : cfg.structure'.documentStructure.appendix.numberingStyle = "letters") :
    ([0, 1, 2, 3, 4].map AppendixProcessor.getAppendixLetter
        = ["A", "B", "C", "D", "E"])
    ∧ AppendixProcessor.getAppendixLetter 26 = "AA"
    ∧ ∀ (j idx : Nat) (orig : String),
        (AppendixProcessor.findAppendixHeadings doc)[j]? = some (idx, orig) →
        ∃ p, doc.paragraphs[idx]? = some p ∧
          (AppendixProcessor.process_appendices cfg doc).paragraphs[idx]?
            = some (AppendixProcessor.setParagraphText p
                (if PyStr.pyChrIn ':' orig then
                  "Appendix " ++ AppendixProcessor.getAppendixLetter j ++ ": "
                    ++ PyStr.pyStrip (AppendixProcessor.afterFirstColon orig)
                else "Appendix " ++ AppendixProcessor.getAppendixLetter j)) := by
  refine ⟨rfl, rfl, ?_⟩
  intro j idx orig hj
  have hmem : (idx, orig) ∈ AppendixProcessor.findAppendixHeadings doc :=
    List.getElem?_mem hj
  have hne : (AppendixProcessor.findAppendixHeadings doc).isEmpty = false := by
    rcases h : AppendixProcessor.findAppendixHeadings doc with _ | _
    · rw [h] at hmem; simp at hmem
    · rfl
  have hpw : List.Pairwise (fun a b => a.1 < b.1)
      (AppendixProcessor.findAppendixHeadings doc) :=
    Shared.appendixScan_pairwise doc.paragraphs 0
  have hbound : ∀ it ∈ AppendixProcessor.findAppendixHeadings doc,
      it.1 < doc.paragraphs.length := by
    intro it hit
    have := (Shared.appendixScan_bounds doc.paragraphs 0 it hit).2
    omega
  obtain ⟨p, hp, hres⟩ := Shared.appendixFold_get_match
    cfg.structure'.documentStructure.appendix.numberingStyle
    (AppendixProcessor.findAppendixHeadings doc) 0 doc.paragraphs hpw hbound
    j idx orig hj
  refine ⟨p, hp, ?_⟩
  simp only [AppendixProcessor.process_appendices, hEn, Bool.not_true,
    Bool.false_eq_true, if_false, hne, AppendixProcessor.applyAppendixNumbering]
  rw [show (AppendixProcessor.findAppendixHeadings doc).enum
      = List.enumFrom 0 (AppendixProcessor.findAppendixHeadings doc) from rfl]
  rw [hres]
  rw [hStyle]
  simp only [AppendixProcessor.appendixNewText, Nat.zero_add]
  simp

/-- Witness for C7: the full behaviour on a concrete document with three
matched appendix headings (with and without colons). -/
theorem appendix_lettering_and_replacement_witness :
    ([0, 1, 2, 3, 4].map AppendixProcessor.getAppendixLetter
        = ["A", "B", "C", "D", "E"])
    ∧ AppendixProcessor.getAppendixLetter 26 = "AA"
    ∧ (∃ p, Fixtures.docAppendices.paragraphs[1]? = some p ∧
        (AppendixProcessor.process_appendices Fixtures.cfgAppendixOn
            Fixtures.docAppendices).paragraphs[1]?
          = some (AppendixProcessor.setParagraphText p
              (if PyStr.pyChrIn ':' "Приложение: Data tables" then
                "Appendix " ++ AppendixProcessor.getAppendixLetter 0 ++ ": "
                  ++ PyStr.pyStrip (AppendixProcessor.afterFirstColon
                      "Приложение: Data tables")
              else "Appendix " ++ AppendixProcessor.getAppendixLetter 0))) := by
  have h := appendix_lettering_and_replacement Fixtures.cfgAppendixOn
    Fixtures.docAppendices rfl rfl
  exact ⟨h.1, h.2.1, h.2.2 0 1 "Приложение: Data tables" (by decide)⟩

namespace Shared

open PyStr DocxUtils

/-- Two two-character suffixes that differ somewhere cannot both close a
string (stated on the reversed character lists `pyEndsWith` checks). -/
theorem ends2_exclusive (v : String) (y1 x1 y2 x2 : Char)
    (hdiff : y1 ≠ y2 ∨ x1 ≠ x2)
    (h : List.isPrefixOf [y1, x1] v.data.reverse = true) :
    List.isPrefixOf [y2, x2] v.data.reverse = false := by
  rcases hr : v.data.reverse with _ | ⟨x, _ | ⟨y, t⟩⟩
  · rw [hr] at h; simp [List.isPrefixOf] at h
  · rw [hr] at h; simp [List.isPrefixOf] at h
  · rw [hr] at h
    simp only [List.isPrefixOf, Bool.and_eq_true, beq_iff_eq] at h
    obtain ⟨h1, h2, -⟩ := h
    subst h1; subst h2
    simp only [List.isPrefixOf, Bool.and_eq_true, beq_iff_eq]
    rcases hdiff with hd | hd
    · simp [Ne.symm hd]
    · simp [Ne.symm hd]

/-- A one-character suffix excludes any two-character suffix with a
different last character. -/
theorem ends12_exclusive (v : String) (y1 y2 x2 : Char)
    (hdiff : y1 ≠ y2)
    (h : List.isPrefixOf [y1] v.data.reverse = true) :
    List.isPrefixOf [y2, x2] v.data.reverse = false := by
  rcases hr : v.data.reverse with _ | ⟨x, t⟩
  · rw [hr] at h; simp [List.isPrefixOf] at h
  · rw [hr] at h
    simp only [List.isPrefixOf, Bool.and_eq_true, beq_iff_eq] at h
    obtain ⟨h1, -⟩ := h
    subst h1
    simp only [List.isPrefixOf, Bool.and_eq_true, beq_iff_eq]
    simp [Ne.symm hdiff]

/-- A two-character suffix excludes any one-character suffix with a
different last character. -/
theorem ends21_exclusive (v : String) (y1 x1 y2 : Char)
    (hdiff : y1 ≠ y2)
    (h : List.isPrefixOf [y1, x1] v.data.reverse = true) :
    List.isPrefixOf [y2] v.data.reverse = false := by
  rcases hr : v.data.reverse with _ | ⟨x, t⟩
  · rw [hr] at h; simp [List.isPrefixOf] at h
  · rw [hr] at h
    simp only [List.isPrefixOf, Bool.and_eq_true, beq_iff_eq] at h
    obtain ⟨h1, -⟩ := h
    subst h1
    simp only [List.isPrefixOf, Bool.and_eq_true, beq_iff_eq]
    simp [Ne.symm hdiff]

/-- The error message of `parse_measurement` carries the offending
string as a substring. -/
theorem measurementErrorMsg_carries (t : String) :
    pyIn t (measurementErrorMsg t) = true := by
  unfold pyIn measurementErrorMsg
  apply decide_eq_true
  refine ⟨("Некорректный формат размера '" : String).data, ['\''], ?_⟩
  rw [String.data_append, String.data_append]

end Shared

/-- C6.  `parse_measurement`: a number goes to points; a string is
stripped and lowercased, a `mm`/`cm`/`pt`/`in`/`"` suffix selects the
unit with the rest parsed by `float()`, no suffix means points; and when
the remainder is not numeric it raises `DocumentFormattingError` whose
message carries the offending (normalized) string — never returning a
value. -/
theorem parse_measurement_contract :
    (∀ x : ℚ, DocxUtils.parse_measurement (.num x) = .ok (.pt x))
    ∧ (∀ (s : String) (q : ℚ),
        PyStr.pyEndsWith (PyStr.pyLower (PyStr.pyStrip s)) "mm" = true →
        PyStr.pyFloat ((PyStr.pyLower (PyStr.pyStrip s)).dropRight 2) = some q →
        DocxUtils.parse_measurement (.str s) = .ok (.mm q))
    ∧ (∀ (s : String) (q : ℚ),
        PyStr.pyEndsWith (PyStr.pyLower (PyStr.pyStrip s)) "cm" = true →
        PyStr.pyFloat ((PyStr.pyLower (PyStr.pyStrip s)).dropRight 2) = some q →
        DocxUtils.parse_measurement (.str s) = .ok (.cm q))
    ∧ (∀ (s : String) (q : ℚ),
        PyStr.pyEndsWith (PyStr.pyLower (PyStr.pyStrip s)) "pt" = true →
        PyStr.pyFloat ((PyStr.pyLower (PyStr.pyStrip s)).dropRight 2) = some q →
        DocxUtils.parse_measurement (.str s) = .ok (.pt q))
    ∧ (∀ (s : String) (q : ℚ),
        PyStr.pyEndsWith (PyStr.pyLower (PyStr.pyStrip s)) "in" = true →
        PyStr.pyFloat ((PyStr.pyLower (PyStr.pyStrip s)).dropRight 2) = some q →
        DocxUtils.parse_measurement (.str s) = .ok (.inches q))
    ∧ (∀ (s : String) (q : ℚ),
        PyStr.pyEndsWith (PyStr.pyLower (PyStr.pyStrip s)) "\"" = true →
        PyStr.pyFloat ((PyStr.pyLower (PyStr.pyStrip s)).dropRight 1) = some q →
        DocxUtils.parse_measurement (.str s) = .ok (.inches q))
    ∧ (∀ (s : String) (q : ℚ),
        PyStr.pyEndsWith (PyStr.pyLower (PyStr.pyStrip s)) "mm" = false →
        PyStr.pyEndsWith (PyStr.pyLower (PyStr.pyStrip s)) "cm" = false →
        PyStr.pyEndsWith (PyStr.pyLower (PyStr.pyStrip s)) "pt" = false →
        PyStr.pyEndsWith (PyStr.pyLower (PyStr.pyStrip s)) "in" = false →
        PyStr.pyEndsWith (PyStr.pyLower (PyStr.pyStrip s)) "\"" = false →
        PyStr.pyFloat (PyStr.pyLower (PyStr.pyStrip s)) = some q →
        DocxUtils.parse_measurement (.str s) = .ok (.pt q))
    ∧ (∀ s : String,
        PyStr.pyEndsWith (PyStr.pyLower (PyStr.pyStrip s)) "mm" = true →
        PyStr.pyFloat ((PyStr.pyLower (PyStr.pyStrip s)).dropRight 2) = none →
        DocxUtils.parse_measurement (.str s)
          = .error ⟨DocxUtils.measurementErrorMsg (PyStr.pyLower (PyStr.pyStrip s))⟩)
    ∧ (∀ s : String,
        PyStr.pyEndsWith (PyStr.pyLower (PyStr.pyStrip s)) "cm" = true →
        PyStr.pyFloat ((PyStr.pyLower (PyStr.pyStrip s)).dropRight 2) = none →
        DocxUtils.parse_measurement (.str s)
          = .error ⟨DocxUtils.measurementErrorMsg (PyStr.pyLower (PyStr.pyStrip s))⟩)
    ∧ (∀ s : String,
        PyStr.pyEndsWith (PyStr.pyLower (PyStr.pyStrip s)) "pt" = true →
        PyStr.pyFloat ((PyStr.pyLower (PyStr.pyStrip s)).dropRight 2) = none →
        DocxUtils.parse_measurement (.str s)
          = .error ⟨DocxUtils.measurementErrorMsg (PyStr.pyLower (PyStr.pyStrip s))⟩)
    ∧ (∀ s : String,
        PyStr.pyEndsWith (PyStr.pyLower (PyStr.pyStrip s)) "in" = true →
        PyStr.pyFloat ((PyStr.pyLower (PyStr.pyStrip s)).dropRight 2) = none →
        DocxUtils.parse_measurement (.str s)
          = .error ⟨DocxUtils.measurementErrorMsg (PyStr.pyLower (PyStr.pyStrip s))⟩)
    ∧ (∀ s : String,
        PyStr.pyEndsWith (PyStr.pyLower (PyStr.pyStrip s)) "\"" = true →
        PyStr.pyFloat ((PyStr.pyLower (PyStr.pyStrip s)).dropRight 1) = none →
        DocxUtils.parse_measurement (.str s)
          = .error ⟨DocxUtils.measurementErrorMsg (PyStr.pyLower (PyStr.pyStrip s))⟩)
    ∧ (∀ s : String,
        PyStr.pyEndsWith (PyStr.pyLower (PyStr.pyStrip s)) "mm" = false →
        PyStr.pyEndsWith (PyStr.pyLower (PyStr.pyStrip s)) "cm" = false →
        PyStr.pyEndsWith (PyStr.pyLower (PyStr.pyStrip s)) "pt" = false →
        PyStr.pyEndsWith (PyStr.pyLower (PyStr.pyStrip s)) "in" = false →
        PyStr.pyEndsWith (PyStr.pyLower (PyStr.pyStrip s)) "\"" = false →
        PyStr.pyFloat (PyStr.pyLower (PyStr.pyStrip s)) = none →
        DocxUtils.parse_measurement (.str s)
          = .error ⟨DocxUtils.measurementErrorMsg (PyStr.pyLower (PyStr.pyStrip s))⟩)
    ∧ (∀ t : String, PyStr.pyIn t (DocxUtils.measurementErrorMsg t) = true) := by
  refine ⟨fun x => rfl, ?_, ?_, ?_, ?_, ?_, ?_, ?_, ?_, ?_, ?_, ?_, ?_,
    Shared.measurementErrorMsg_carries⟩
  · intro s q hmm hf
    simp only [DocxUtils.parse_measurement, hmm, if_true, hf]
  · intro s q hcm hf
    have hmm : PyStr.pyEndsWith (PyStr.pyLower (PyStr.pyStrip s)) "mm" = false :=
      Shared.ends2_exclusive _ 'm' 'c' 'm' 'm' (Or.inr (by decide)) hcm
    simp only [DocxUtils.parse_measurement, hmm, hcm, Bool.false_eq_true, if_false,
      if_true, hf]
  · intro s q hpt hf
    have hmm : PyStr.pyEndsWith (PyStr.pyLower (PyStr.pyStrip s)) "mm" = false :=
      Shared.ends2_exclusive _ 't' 'p' 'm' 'm' (Or.inl (by decide)) hpt
    have hcm : PyStr.pyEndsWith (PyStr.pyLower (PyStr.pyStrip s)) "cm" = false :=
      Shared.ends2_exclusive _ 't' 'p' 'm' 'c' (Or.inl (by decide)) hpt
    simp only [DocxUtils.parse_measurement, hmm, hcm, hpt, Bool.false_eq_true,
      if_false, if_true, hf]
  · intro s q hin hf
    have hmm : PyStr.pyEndsWith (PyStr.pyLower (PyStr.pyStrip s)) "mm" = false :=
      Shared.ends2_exclusive _ 'n' 'i' 'm' 'm' (Or.inl (by decide)) hin
    have hcm : PyStr.pyEndsWith (PyStr.pyLower (PyStr.pyStrip s)) "cm" = false :=
      Shared.ends2_exclusive _ 'n' 'i' 'm' 'c' (Or.inl (by decide)) hin
    have hpt : PyStr.pyEndsWith (PyStr.pyLower (PyStr.pyStrip s)) "pt" = false :=
      Shared.ends2_exclusive _ 'n' 'i' 't' 'p' (Or.inl (by decide)) hin
    simp only [DocxUtils.parse_measurement, hmm, hcm, hpt, hin, Bool.false_eq_true,
      if_false, Bool.true_or, if_true, hf]
  · intro s q hq hf
    have hmm : PyStr.pyEndsWith (PyStr.pyLower (PyStr.pyStrip s)) "mm" = false :=
      Shared.ends12_exclusive _ '"' 'm' 'm' (by decide) hq
    have hcm : PyStr.pyEndsWith (PyStr.pyLower (PyStr.pyStrip s)) "cm" = false :=
      Shared.ends12_exclusive _ '"' 'm' 'c' (by decide) hq
    have hpt : PyStr.pyEndsWith (PyStr.pyLower (PyStr.pyStrip s)) "pt" = false :=
      Shared.ends12_exclusive _ '"' 't' 'p' (by decide) hq
    have hin : PyStr.pyEndsWith (PyStr.pyLower (PyStr.pyStrip s)) "in" = false :=
      Shared.ends12_exclusive _ '"' 'n' 'i' (by decide) hq
    simp only [DocxUtils.parse_measurement, hmm, hcm, hpt, hin, hq,
      Bool.false_eq_true, if_false, Bool.false_or, if_true, hf]
  · intro s q hmm hcm hpt hin hq hf
    simp only [DocxUtils.parse_measurement, hmm, hcm, hpt, hin, hq,
      Bool.false_eq_true, if_false, Bool.or_self, hf]
  · intro s hmm hf
    simp only [DocxUtils.parse_measurement, hmm, if_true, hf]
  · intro s hcm hf
    have hmm : PyStr.pyEndsWith (PyStr.pyLower (PyStr.pyStrip s)) "mm" = false :=
      Shared.ends2_exclusive _ 'm' 'c' 'm' 'm' (Or.inr (by decide)) hcm
    simp only [DocxUtils.parse_measurement, hmm, hcm, Bool.false_eq_true, if_false,
      if_true, hf]
  · intro s hpt hf
    have hmm : PyStr.pyEndsWith (PyStr.pyLower (PyStr.pyStrip s)) "mm" = false :=
      Shared.ends2_exclusive _ 't' 'p' 'm' 'm' (Or.inl (by decide)) hpt
    have hcm : PyStr.pyEndsWith (PyStr.pyLower (PyStr.pyStrip s)) "cm" = false :=
      Shared.ends2_exclusive _ 't' 'p' 'm' 'c' (Or.inl (by decide)) hpt
    simp only [DocxUtils.parse_measurement, hmm, hcm, hpt, Bool.false_eq_true,
      if_false, if_true, hf]
  · intro s hin hf
    have hmm : PyStr.pyEndsWith (PyStr.pyLower (PyStr.pyStrip s)) "mm" = false :=
      Shared.ends2_exclusive _ 'n' 'i' 'm' 'm' (Or.inl (by decide)) hin
    have hcm : PyStr.pyEndsWith (PyStr.pyLower (PyStr.pyStrip s)) "cm" = false :=
      Shared.ends2_exclusive _ 'n' 'i' 'm' 'c' (Or.inl (by decide)) hin
    have hpt : PyStr.pyEndsWith (PyStr.pyLower (PyStr.pyStrip s)) "pt" = false :=
      Shared.ends2_exclusive _ 'n' 'i' 't' 'p' (Or.inl (by decide)) hin
    simp only [DocxUtils.parse_measurement, hmm, hcm, hpt, hin, Bool.false_eq_true,
      if_false, Bool.true_or, if_true, hf]
  · intro s hq hf
    have hmm : PyStr.pyEndsWith (PyStr.pyLower (PyStr.pyStrip s)) "mm" = false :=
      Shared.ends12_exclusive _ '"' 'm' 'm' (by decide) hq
    have hcm : PyStr.pyEndsWith (PyStr.pyLower (PyStr.pyStrip s)) "cm" = false :=
      Shared.ends12_exclusive _ '"' 'm' 'c' (by decide) hq
    have hpt : PyStr.pyEndsWith (PyStr.pyLower (PyStr.pyStrip s)) "pt" = false :=
      Shared.ends12_exclusive _ '"' 't' 'p' (by decide) hq
    have hin : PyStr.pyEndsWith (PyStr.pyLower (PyStr.pyStrip s)) "in" = false :=
      Shared.ends12_exclusive _ '"' 'n' 'i' (by decide) hq
    simp only [DocxUtils.parse_measurement, hmm, hcm, hpt, hin, hq,
      Bool.false_eq_true, if_false, Bool.false_or, if_true, hf]
  · intro s hmm hcm hpt hin hq hf
    simp only [DocxUtils.parse_measurement, hmm, hcm, hpt, hin, hq,
      Bool.false_eq_true, if_false, Bool.or_self, hf]

/-- Witness for C6: each contract branch at a concrete input, including
the failing string "abcmm" whose message carries the string. -/
theorem parse_measurement_contract_witness :
    DocxUtils.parse_measurement (.num 14) = .ok (.pt 14)
    ∧ DocxUtils.parse_measurement (.str " 20MM ") = .ok (.mm (mkRat 20 1))
    ∧ DocxUtils.parse_measurement (.str "2.5cm") = .ok (.cm (mkRat 25 10))
    ∧ DocxUtils.parse_measurement (.str "14pt") = .ok (.pt (mkRat 14 1))
    ∧ DocxUtils.parse_measurement (.str "1in") = .ok (.inches (mkRat 1 1))
    ∧ DocxUtils.parse_measurement (.str "1.5\"") = .ok (.inches (mkRat 15 10))
    ∧ DocxUtils.parse_measurement (.str "42") = .ok (.pt (mkRat 42 1))
    ∧ DocxUtils.parse_measurement (.str "abcmm")
        = .error ⟨DocxUtils.measurementErrorMsg (PyStr.pyLower (PyStr.pyStrip "abcmm"))⟩
    ∧ PyStr.pyIn "abcmm" (DocxUtils.measurementErrorMsg "abcmm") = true := by
  obtain ⟨hnum, hmm, hcm, hpt, hin, hq, hno, emm, -, -, -, -, -, hmsg⟩ :=
    parse_measurement_contract
  exact ⟨hnum 14,
    hmm " 20MM " (mkRat 20 1) (by decide) (by decide),
    hcm "2.5cm" (mkRat 25 10) (by decide) (by decide),
    hpt "14pt" (mkRat 14 1) (by decide) (by decide),
    hin "1in" (mkRat 1 1) (by decide) (by decide),
    hq "1.5\"" (mkRat 15 10) (by decide) (by decide),
    hno "42" (mkRat 42 1) (by decide) (by decide) (by decide) (by decide)
      (by decide) (by decide),
    emm "abcmm" (by decide) (by decide),
    hmsg "abcmm"⟩
